import Mathlib

/-!
Verification of the TMDB synchronization add-on (models/tmdb_movie.py,
models/tmdb_genre.py, models/tmdb_utils_contact.py, models/res_partner_inherit.py,
wizard/tmdb_data_cleanup_wizard.py) against its design specification.

Modelling conventions used throughout this development:
* Dates are integer day numbers (`Int`); datetimes are `Nat` timestamps.
* Odoo `Char`/`Text` fields that the code sets to `False` are `Option String`
  with `none` for the falsy value; the Python `x or False` idiom on strings
  maps the empty string to `none` as well.
* Floats coming from the TMDB JSON are modelled as exact rationals (`Rat`);
  the claims under study only involve order comparisons and defaulting, never
  floating-point rounding.
* The relational store is explicit state: lists of records plus an id counter.
* Network effects (TMDB fetches, image downloads) are oracles passed in as
  functions returning `Option`, with `none` for the "fetch failed" sentinel
  that the Python code produces by catching `RequestException`.
-/

/-- The three values of the `age_category` selection field of `tmdb.movie`
("Clasica" / "Reciente" / "Nueva"). -/
inductive AgeCategory where
  | clasica
  | reciente
  | nueva
  deriving DecidableEq, Repr

/-- The age in (floor) years used by `TMDBMovie._compute_age_category`:
`(today - record.release_date).days // 365 if today >= record.release_date else 0`. -/
def movieAge (today rd : Int) : Nat :=
  if rd ≤ today then (today - rd).toNat / 365 else 0

/-- Embeds `TMDBMovie._compute_age_category` (models/tmdb_movie.py):
category is `False` (here `none`) without a release date, else the
`age >= 30` / `5 < age < 30` / `age <= 5` elif-chain. -/
def compute_age_category (today : Int) (release_date : Option Int) : Option AgeCategory :=
  match release_date with
  | none => none
  | some rd =>
    let age := movieAge today rd
    if age ≥ 30 then some AgeCategory.clasica
    else if 5 < age ∧ age < 30 then some AgeCategory.reciente
    else if age ≤ 5 then some AgeCategory.nueva
    else none

/-- C5: `age_category` is derived from the release date versus today:
age ≥ 30 years gives "Clasica" (classic), 5 < age < 30 gives "Reciente"
(recent), age ≤ 5 gives "Nueva" (new), and it is unset exactly when there is
no release date; every movie with a release date — in particular one released
exactly 5 years (age 5) ago — lands in exactly one of the three categories. -/
theorem c5_age_category_from_release_date (today rd : Int) :
    compute_age_category today none = none ∧
    (movieAge today rd ≥ 30 →
      compute_age_category today (some rd) = some AgeCategory.clasica) ∧
    (5 < movieAge today rd ∧ movieAge today rd < 30 →
      compute_age_category today (some rd) = some AgeCategory.reciente) ∧
    (movieAge today rd ≤ 5 →
      compute_age_category today (some rd) = some AgeCategory.nueva) ∧
    (∃! c, compute_age_category today (some rd) = some c) := by
  refine ⟨rfl, ?_, ?_, ?_, ?_⟩
  · intro h
    simp [compute_age_category, h]
  · rintro ⟨h5, h30⟩
    have h : ¬ movieAge today rd ≥ 30 := by omega
    simp [compute_age_category, h, h5, h30]
  · intro h
    have h30 : ¬ movieAge today rd ≥ 30 := by omega
    have h5 : ¬ (5 < movieAge today rd ∧ movieAge today rd < 30) := by omega
    simp [compute_age_category, h30, h5, h]
  · by_cases h30 : movieAge today rd ≥ 30
    · refine ⟨AgeCategory.clasica, by simp [compute_age_category, h30], ?_⟩
      intro c hc
      simp [compute_age_category, h30] at hc
      exact hc.symm
    · by_cases hmid : 5 < movieAge today rd ∧ movieAge today rd < 30
      · refine ⟨AgeCategory.reciente, by simp [compute_age_category, h30, hmid], ?_⟩
        intro c hc
        simp [compute_age_category, h30, hmid] at hc
        exact hc.symm
      · have h5 : movieAge today rd ≤ 5 := by omega
        refine ⟨AgeCategory.nueva, by simp [compute_age_category, h30, hmid, h5], ?_⟩
        intro c hc
        simp [compute_age_category, h30, hmid, h5] at hc
        exact hc.symm

/-- Witness for C5 at concrete dates (today = day 20000): release day 18175 is
age 5 (exactly five 365-day years) and lands in "Nueva"; day 10000 is age 27,
"Reciente"; day 5000 is age 41, "Clasica". -/
theorem c5_age_category_witness :
    compute_age_category 20000 (some 18175) = some AgeCategory.nueva ∧
    compute_age_category 20000 (some 10000) = some AgeCategory.reciente ∧
    compute_age_category 20000 (some 5000) = some AgeCategory.clasica :=
  ⟨(c5_age_category_from_release_date 20000 18175).2.2.2.1 (by decide),
   (c5_age_category_from_release_date 20000 10000).2.2.1 (by decide),
   (c5_age_category_from_release_date 20000 5000).2.1 (by decide)⟩

/-- Python `str.replace(pat, rep)` on character lists: replace every
non-overlapping occurrence of `pat`, scanning left to right. Structural fuel
makes the function kernel-evaluable; every call site passes fuel
`≥ length + 1`, which suffices because each step consumes at least one
character (all patterns used in the source are nonempty). -/
def replaceAllFuel (pat rep : List Char) : Nat → List Char → List Char
  | 0, s => s
  | _ + 1, [] => []
  | fuel + 1, c :: rest =>
    if pat ≠ [] ∧ pat.isPrefixOf (c :: rest) then
      rep ++ replaceAllFuel pat rep fuel ((c :: rest).drop pat.length)
    else
      c :: replaceAllFuel pat rep fuel rest

/-- Python `s.replace(pat, rep)` with adequate fuel. -/
def replaceAll (pat rep s : List Char) : List Char :=
  replaceAllFuel pat rep (s.length + 1) s

/-- Python `str.lower()` (the titles under study are ASCII). -/
def pyLower (s : List Char) : List Char :=
  s.map Char.toLower

/-- Python `str.split()` restricted to space-separated text: the maximal
nonempty runs of non-space characters, accumulator-style. -/
def splitWordsAux : List Char → List Char → List (List Char)
  | [], acc => if acc = [] then [] else [acc.reverse]
  | c :: rest, acc =>
    if c = ' ' then
      if acc = [] then splitWordsAux rest []
      else acc.reverse :: splitWordsAux rest []
    else splitWordsAux rest (c :: acc)

/-- Python `str.split()` (no argument form) on space-separated text. -/
def splitWords (s : List Char) : List (List Char) :=
  splitWordsAux s []

/-- Python `" ".join(words)`. -/
def joinWords : List (List Char) → List Char
  | [] => []
  | [w] => w
  | w :: ws => w ++ ' ' :: joinWords ws

/-- Embeds `TMDBDataCleanupWizard._normalize_title`
(wizard/tmdb_data_cleanup_wizard.py lines 352-370): lower-case, then
`str.replace` each of the six article *substrings* `"the "`, `" the"`,
`"a "`, `" a"`, `"an "`, `" an"` by the empty string, remove the punctuation
characters `.,!?;:`, and re-join the whitespace-split words with single
spaces. -/
def normalize_title (title : List Char) : List Char :=
  if title = [] then []
  else
    let n := pyLower title
    let n := replaceAll "the ".toList [] n
    let n := replaceAll " the".toList [] n
    let n := replaceAll "a ".toList [] n
    let n := replaceAll " a".toList [] n
    let n := replaceAll "an ".toList [] n
    let n := replaceAll " an".toList [] n
    let n := [".", ",", "!", "?", ";", ":"].foldl
      (fun acc ch => replaceAll ch.toList [] acc) n
    joinWords (splitWords n)

/-- The normalization the spec's sentence describes, for comparison with the
implemented `normalize_title`: lower-case, drop punctuation characters, split
into whitespace-separated words, remove exactly the article *words*
"the"/"a"/"an", and join the remaining words with single spaces. -/
def spec_normalize_title (title : List Char) : List Char :=
  let lowered := pyLower title
  let noPunct := lowered.filter (fun c => c ∉ ['.', ',', '!', '?', ';', ':'])
  let kept := (splitWords noPunct).filter
    (fun w => w ≠ "the".toList ∧ w ≠ "a".toList ∧ w ≠ "an".toList)
  joinWords kept

/-- C9 counterexample: the implemented normalization removes the article
letter sequences as substrings, not as words. On "Man of Steel" it deletes
the characters "an " inside the non-article word "Man", producing
"mof steel", while word-level article stripping (the claim) keeps every
non-article word and yields "man of steel". -/
theorem c9_counterexample_normalize_title :
    normalize_title "Man of Steel".toList = "mof steel".toList ∧
    spec_normalize_title "Man of Steel".toList = "man of steel".toList ∧
    normalize_title "Man of Steel".toList ≠
      spec_normalize_title "Man of Steel".toList := by
  decide

/-- The punctuation characters the cleanup wizard removes (`".,!?;:"`). -/
def punctChars : List Char :=
  ['.', ',', '!', '?', ';', ':']

/-- Deleting occurrences of a pattern never introduces characters: with the
empty replacement, every output character was an input character. -/
theorem mem_of_mem_replaceAllFuel (pat : List Char) :
    ∀ (fuel : Nat) (s : List Char) (x : Char),
      x ∈ replaceAllFuel pat [] fuel s → x ∈ s := by
  intro fuel
  induction fuel with
  | zero =>
    intro s x h
    simpa [replaceAllFuel] using h
  | succ n ih =>
    intro s x h
    cases s with
    | nil => simp [replaceAllFuel] at h
    | cons c rest =>
      simp only [replaceAllFuel] at h
      split at h
      · simp only [List.nil_append] at h
        exact List.mem_of_mem_drop (ih _ x h)
      · rcases List.mem_cons.mp h with h1 | h2
        · exact h1 ▸ List.mem_cons_self _ _
        · exact List.mem_cons_of_mem _ (ih _ x h2)

/-- Deleting occurrences of a pattern never introduces characters. -/
theorem mem_of_mem_replaceAll (pat s : List Char) (x : Char)
    (h : x ∈ replaceAll pat [] s) : x ∈ s :=
  mem_of_mem_replaceAllFuel pat _ s x h

/-- An absent character stays absent under deletion of any pattern. -/
theorem not_mem_replaceAll (pat s : List Char) (x : Char) (h : x ∉ s) :
    x ∉ replaceAll pat [] s :=
  fun hx => h (mem_of_mem_replaceAll pat s x hx)

/-- Replacing a single character by nothing removes every occurrence of it,
provided the fuel covers the input length. -/
theorem not_mem_replaceAllFuel_single (c : Char) :
    ∀ (fuel : Nat) (s : List Char), s.length ≤ fuel →
      c ∉ replaceAllFuel [c] [] fuel s := by
  intro fuel
  induction fuel with
  | zero =>
    intro s hs
    have : s = [] := List.length_eq_zero.mp (Nat.le_zero.mp hs)
    subst this
    simp [replaceAllFuel]
  | succ n ih =>
    intro s hs
    cases s with
    | nil => simp [replaceAllFuel]
    | cons d rest =>
      simp only [replaceAllFuel]
      split
      case isTrue hcond =>
        simp only [List.length_cons, List.drop_succ_cons, List.drop_zero,
          List.nil_append]
        exact ih rest (by simpa using Nat.le_of_succ_le_succ hs)
      case isFalse hcond =>
        intro hmem
        rcases List.mem_cons.mp hmem with h1 | h2
        · exact hcond ⟨by simp, by simp [List.isPrefixOf, ← h1]⟩
        · exact ih rest (by simpa using Nat.le_of_succ_le_succ hs) h2

/-- Replacing a single character by nothing removes every occurrence of it. -/
theorem not_mem_replaceAll_single (c : Char) (s : List Char) :
    c ∉ replaceAll [c] [] s :=
  not_mem_replaceAllFuel_single c _ s (Nat.le_succ _)

/-- Characters of any word produced by the splitter come from the scanned
text or the accumulator. -/
theorem mem_of_mem_splitWordsAux :
    ∀ (s acc : List Char) (w : List Char) (x : Char),
      w ∈ splitWordsAux s acc → x ∈ w → x ∈ s ∨ x ∈ acc := by
  intro s
  induction s with
  | nil =>
    intro acc w x hw hx
    by_cases h : acc = []
    · simp [splitWordsAux, h] at hw
    · simp only [splitWordsAux, if_neg h, List.mem_singleton] at hw
      subst hw
      exact Or.inr (List.mem_reverse.mp hx)
  | cons c rest ih =>
    intro acc w x hw hx
    simp only [splitWordsAux] at hw
    by_cases hc : c = ' '
    · rw [if_pos hc] at hw
      by_cases ha : acc = []
      · rcases ih [] w x (by simpa [ha] using hw) hx with h | h
        · exact Or.inl (List.mem_cons_of_mem _ h)
        · simp at h
      · rw [if_neg ha] at hw
        rcases List.mem_cons.mp hw with h1 | h2
        · subst h1
          exact Or.inr (List.mem_reverse.mp hx)
        · rcases ih [] w x h2 hx with h | h
          · exact Or.inl (List.mem_cons_of_mem _ h)
          · simp at h
    · rw [if_neg hc] at hw
      rcases ih (c :: acc) w x hw hx with h | h
      · exact Or.inl (List.mem_cons_of_mem _ h)
      · rcases List.mem_cons.mp h with h1 | h2
        · exact Or.inl (h1 ▸ List.mem_cons_self _ _)
        · exact Or.inr h2

/-- Every word produced by the splitter is nonempty and free of spaces,
provided the accumulator is. -/
theorem splitWordsAux_words_ok :
    ∀ (s acc : List Char), (' ' ∉ acc) →
      ∀ w ∈ splitWordsAux s acc, w ≠ [] ∧ ' ' ∉ w := by
  intro s
  induction s with
  | nil =>
    intro acc hacc w hw
    by_cases h : acc = []
    · simp [splitWordsAux, h] at hw
    · simp only [splitWordsAux, if_neg h, List.mem_singleton] at hw
      subst hw
      exact ⟨by simpa using h, by simpa using hacc⟩
  | cons c rest ih =>
    intro acc hacc w hw
    simp only [splitWordsAux] at hw
    by_cases hc : c = ' '
    · rw [if_pos hc] at hw
      by_cases ha : acc = []
      · exact ih [] (by simp) w (by simpa [ha] using hw)
      · rw [if_neg ha] at hw
        rcases List.mem_cons.mp hw with h1 | h2
        · subst h1
          exact ⟨by simpa using ha, by simpa using hacc⟩
        · exact ih [] (by simp) w h2
    · rw [if_neg hc] at hw
      refine ih (c :: acc) ?_ w hw
      intro hmem
      rcases List.mem_cons.mp hmem with h1 | h2
      · exact hc h1.symm
      · exact hacc h2

/-- Every character of a joined word list is a space or comes from a word. -/
theorem mem_joinWords :
    ∀ (ws : List (List Char)) (x : Char),
      x ∈ joinWords ws → x = ' ' ∨ ∃ w ∈ ws, x ∈ w := by
  intro ws
  induction ws with
  | nil =>
    intro x h
    simp [joinWords] at h
  | cons w ws ih =>
    intro x h
    cases ws with
    | nil =>
      exact Or.inr ⟨w, List.mem_cons_self _ _, by simpa [joinWords] using h⟩
    | cons w' ws' =>
      simp only [joinWords, List.mem_append, List.mem_cons] at h
      rcases h with h1 | h2 | h3
      · exact Or.inr ⟨w, List.mem_cons_self _ _, h1⟩
      · exact Or.inl h2
      · rcases ih x h3 with h | ⟨v, hv, hx⟩
        · exact Or.inl h
        · exact Or.inr ⟨v, List.mem_cons_of_mem _ hv, hx⟩

/-- Joining nonempty words yields a nonempty list. -/
theorem joinWords_ne_nil (w : List Char) (ws : List (List Char))
    (hw : w ≠ []) : joinWords (w :: ws) ≠ [] := by
  cases ws with
  | nil => simpa [joinWords] using hw
  | cons w' ws' => simp [joinWords]

/-- A space-free character list trivially has no two adjacent spaces. -/
theorem chain_of_no_space (w : List Char) (hw : ' ' ∉ w) :
    List.Chain' (fun a b => ¬(a = ' ' ∧ b = ' ')) w := by
  induction w with
  | nil => simp
  | cons a w ih =>
    cases w with
    | nil => simp
    | cons b w' =>
      rw [List.chain'_cons]
      refine ⟨fun hab => hw (by simp [hab.1]), ?_⟩
      exact ih fun h => hw (List.mem_cons_of_mem _ h)

/-- The head of a join starting with a nonempty word is that word's head. -/
theorem head?_joinWords (w : List Char) (ws : List (List Char)) (hw : w ≠ []) :
    (joinWords (w :: ws)).head? = w.head? := by
  cases ws with
  | nil => simp [joinWords]
  | cons w' ws' =>
    cases w with
    | nil => exact absurd rfl hw
    | cons c cs => simp [joinWords]

/-- Joining nonempty, space-free words yields no two adjacent spaces. -/
theorem chain_joinWords (ws : List (List Char))
    (h : ∀ w ∈ ws, w ≠ [] ∧ ' ' ∉ w) :
    List.Chain' (fun a b => ¬(a = ' ' ∧ b = ' ')) (joinWords ws) := by
  induction ws with
  | nil => simp [joinWords]
  | cons w ws ih =>
    cases ws with
    | nil =>
      simpa [joinWords] using chain_of_no_space w (h w (List.mem_cons_self _ _)).2
    | cons w' ws' =>
      have hw := h w (List.mem_cons_self _ _)
      have hrest : ∀ v ∈ w' :: ws', v ≠ [] ∧ ' ' ∉ v :=
        fun v hv => h v (List.mem_cons_of_mem _ hv)
      show List.Chain' _ (w ++ ' ' :: joinWords (w' :: ws'))
      rw [List.chain'_append]
      refine ⟨chain_of_no_space w hw.2, ?_, ?_⟩
      · rw [List.chain'_cons']
        constructor
        · intro y hy hc
          have hw' := hrest w' (List.mem_cons_self _ _)
          rw [head?_joinWords w' ws' hw'.1] at hy
          exact hw'.2 (hc.2 ▸ List.mem_of_mem_head? hy)
        · exact ih hrest
      · intro x hx y hy hc
        simp only [List.head?_cons, Option.mem_def, Option.some.injEq] at hy
        exact hw.2 (hc.1 ▸ List.mem_of_mem_getLast? hx)

/-- Joining nonempty, space-free words never ends in a space. -/
theorem getLast?_joinWords_ne_space (ws : List (List Char))
    (h : ∀ w ∈ ws, w ≠ [] ∧ ' ' ∉ w) :
    (joinWords ws).getLast? ≠ some ' ' := by
  induction ws with
  | nil => simp [joinWords]
  | cons w ws ih =>
    cases ws with
    | nil =>
      intro hy
      exact (h w (List.mem_cons_self _ _)).2 (List.mem_of_mem_getLast? hy)
    | cons w' ws' =>
      have hrest : ∀ v ∈ w' :: ws', v ≠ [] ∧ ' ' ∉ v :=
        fun v hv => h v (List.mem_cons_of_mem _ hv)
      have hne : joinWords (w' :: ws') ≠ [] :=
        joinWords_ne_nil w' ws' (hrest w' (List.mem_cons_self _ _)).1
      show (w ++ ' ' :: joinWords (w' :: ws')).getLast? ≠ some ' '
      rw [List.getLast?_append_of_ne_nil w (by simp)]
      have : (' ' :: joinWords (w' :: ws')) = [' '] ++ joinWords (w' :: ws') := rfl
      rw [this, List.getLast?_append_of_ne_nil [' '] hne]
      exact ih hrest

/-- Characters survive the punctuation-removal fold only if they were in the
input. -/
theorem mem_of_mem_punctFold :
    ∀ (L : List String) (n : List Char) (x : Char),
      x ∈ L.foldl (fun acc ch => replaceAll ch.toList [] acc) n → x ∈ n := by
  intro L
  induction L with
  | nil =>
    intro n x h
    simpa using h
  | cons p L ih =>
    intro n x h
    exact mem_of_mem_replaceAll _ _ _ (ih _ x h)

/-- The punctuation-removal fold of `_normalize_title` removes every
occurrence of each of the six punctuation characters. -/
theorem punct_not_mem_punctFold (n : List Char) (p : Char) (hp : p ∈ punctChars) :
    p ∉ [".", ",", "!", "?", ";", ":"].foldl
      (fun acc ch => replaceAll ch.toList [] acc) n := by
  simp only [List.foldl]
  fin_cases hp
  · exact not_mem_replaceAll _ _ _ <| not_mem_replaceAll _ _ _ <|
      not_mem_replaceAll _ _ _ <| not_mem_replaceAll _ _ _ <|
      not_mem_replaceAll _ _ _ <| not_mem_replaceAll_single '.' n
  · exact not_mem_replaceAll _ _ _ <| not_mem_replaceAll _ _ _ <|
      not_mem_replaceAll _ _ _ <| not_mem_replaceAll _ _ _ <|
      not_mem_replaceAll_single ',' _
  · exact not_mem_replaceAll _ _ _ <| not_mem_replaceAll _ _ _ <|
      not_mem_replaceAll _ _ _ <| not_mem_replaceAll_single '!' _
  · exact not_mem_replaceAll _ _ _ <| not_mem_replaceAll _ _ _ <|
      not_mem_replaceAll_single '?' _
  · exact not_mem_replaceAll _ _ _ <| not_mem_replaceAll_single ';' _
  · exact not_mem_replaceAll_single ':' _

/-- General shape facts about `joinWords (splitWords n)`: every character is
a space or comes from `n`, there are no two adjacent spaces, and the result
neither starts nor ends with a space. -/
theorem joinWords_splitWords_props (n : List Char) :
    (∀ x ∈ joinWords (splitWords n), x = ' ' ∨ x ∈ n) ∧
    List.Chain' (fun a b => ¬(a = ' ' ∧ b = ' ')) (joinWords (splitWords n)) ∧
    (joinWords (splitWords n)).head? ≠ some ' ' ∧
    (joinWords (splitWords n)).getLast? ≠ some ' ' := by
  have hwords : ∀ w ∈ splitWords n, w ≠ [] ∧ ' ' ∉ w :=
    splitWordsAux_words_ok n [] (by simp)
  refine ⟨?_, chain_joinWords _ hwords, ?_, getLast?_joinWords_ne_space _ hwords⟩
  · intro x hx
    rcases mem_joinWords _ x hx with h | ⟨w, hw, hxw⟩
    · exact Or.inl h
    · rcases mem_of_mem_splitWordsAux n [] w x hw hxw with h | h
      · exact Or.inr h
      · simp at h
  · cases hsw : splitWords n with
    | nil => simp [joinWords]
    | cons w ws =>
      have hw := hwords w (hsw ▸ List.mem_cons_self _ _)
      rw [head?_joinWords w ws hw.1]
      intro hy
      exact hw.2 (List.mem_of_mem_head? hy)

/-- C9 amended: `_normalize_title` lower-cases the title and deletes the six
article character sequences "the ", " the", "a ", " a", "an ", " an" as raw
substrings (so letters of non-article words can be deleted too, e.g.
"Man of Steel" becomes "mof steel" while "The Matrix" becomes "matrix"),
removes the punctuation characters `.,!?;:`, and collapses whitespace: every
output character is a lower-cased input character or a single separating
space, no punctuation survives, and the output has no leading, trailing, or
doubled spaces. -/
theorem c9_amended_normalize_title (title : List Char) :
    (∀ x ∈ normalize_title title, (x ∈ pyLower title ∨ x = ' ') ∧ x ∉ punctChars) ∧
    List.Chain' (fun a b => ¬(a = ' ' ∧ b = ' ')) (normalize_title title) ∧
    (normalize_title title).head? ≠ some ' ' ∧
    (normalize_title title).getLast? ≠ some ' ' ∧
    normalize_title "The Matrix".toList = "matrix".toList ∧
    normalize_title "Man of Steel".toList = "mof steel".toList := by
  by_cases h0 : title = []
  · subst h0
    exact ⟨by simp [normalize_title], by simp [normalize_title],
      by simp [normalize_title], by simp [normalize_title], by decide, by decide⟩
  · simp only [normalize_title, if_neg h0]
    refine ⟨?_, (joinWords_splitWords_props _).2.1,
      (joinWords_splitWords_props _).2.2.1,
      (joinWords_splitWords_props _).2.2.2, by decide, by decide⟩
    intro x hx
    rcases (joinWords_splitWords_props _).1 x hx with hsp | hmem
    · subst hsp
      exact ⟨Or.inr rfl, by decide⟩
    · constructor
      · exact Or.inl (mem_of_mem_replaceAll _ _ _ <|
          mem_of_mem_replaceAll _ _ _ <| mem_of_mem_replaceAll _ _ _ <|
          mem_of_mem_replaceAll _ _ _ <| mem_of_mem_replaceAll _ _ _ <|
          mem_of_mem_replaceAll _ _ _ <| mem_of_mem_punctFold _ _ x hmem)
      · intro hp
        exact punct_not_mem_punctFold _ x hp hmem

/-- Witness for C9 amended at a concrete title: applying the amended theorem
at "Man of Steel" yields the concrete substring-deletion output. -/
theorem c9_amended_normalize_title_witness :
    normalize_title "Man of Steel".toList = "mof steel".toList :=
  (c9_amended_normalize_title "Man of Steel".toList).2.2.2.2.2

/-- A `tmdb.genre` record (models/tmdb_genre.py): external id and name. -/
structure Genre where
  id : Nat
  tmdb_genre_id : Int
  name : String
  deriving DecidableEq, Repr

/-- A `res.partner` record with the fields this add-on reads and writes
(models/res_partner_inherit.py): role flags, job title, profile image. -/
structure Partner where
  id : Nat
  name : String
  is_company : Bool
  is_director : Bool
  is_actor : Bool
  function : Option String
  image_1920 : Option String
  tmdb_profile_path : Option String
  deriving DecidableEq, Repr

/-- A `tmdb.movie` record (models/tmdb_movie.py). Falsy `Char`/`Text`/`Date`
fields are `Option` with `none` for Odoo's `False`; relational fields are id
lists. -/
structure Movie where
  id : Nat
  tmdb_id : Int
  title : String
  original_title : Option String
  overview : Option String
  release_date : Option Int
  popularity : Rat
  vote_average : Rat
  vote_count : Int
  poster_path : Option String
  backdrop_path : Option String
  director : Option String
  director_id : Option Nat
  genre_ids : List Nat
  actor_ids : List Nat
  active : Bool
  last_sync : Nat
  create_date : Nat
  deriving DecidableEq, Repr

/-- The relational store the add-on reads and writes: the three record
tables plus a fresh-id counter. -/
structure St where
  movies : List Movie
  genres : List Genre
  partners : List Partner
  nextId : Nat
  deriving DecidableEq, Repr

/-- One entry of the TMDB `/genre/movie/list` response. -/
structure GenreData where
  id : Int
  name : String
  deriving DecidableEq, Repr

/-- The Odoo search `[("tmdb_genre_id", "=", gid)]` as a nonempty test. -/
def genre_exists (genres : List Genre) (gid : Int) : Bool :=
  genres.any (fun g => g.tmdb_genre_id == gid)

/-- `self.env["tmdb.genre"].create({...})`: append a fresh genre record. -/
def create_genre (s : St) (gid : Int) (name : String) : Nat × St :=
  (s.nextId,
    { s with
      genres := s.genres ++ [{ id := s.nextId, tmdb_genre_id := gid, name := name }]
      nextId := s.nextId + 1 })

/-- Result counters of `sync_only_new_genres_from_tmdb`. -/
structure SyncNewResult where
  synced : Nat
  created : Nat
  skipped : Nat
  total : Nat
  deriving DecidableEq, Repr

/-- The per-entry loop of `TMDBGenre.sync_only_new_genres_from_tmdb`
(models/tmdb_genre.py lines 228-242): skip entries whose external id already
exists, create the others; returns (created, skipped, final state). -/
def sync_new_loop : List GenreData → St → Nat × Nat × St
  | [], s => (0, 0, s)
  | g :: rest, s =>
    if genre_exists s.genres g.id then
      let r := sync_new_loop rest s
      (r.1, r.2.1 + 1, r.2.2)
    else
      let r := sync_new_loop rest (create_genre s g.id g.name).2
      (r.1 + 1, r.2.1, r.2.2)

/-- Embeds `TMDBGenre.sync_only_new_genres_from_tmdb` given the fetched
upstream genre list: loop, then report
`{synced: 0, created, skipped, total: created + skipped}`. -/
def sync_only_new_genres_from_tmdb (upstream : List GenreData) (s : St) :
    SyncNewResult × St :=
  let r := sync_new_loop upstream s
  ({ synced := 0, created := r.1, skipped := r.2.1, total := r.1 + r.2.1 }, r.2.2)

/-- Creating a genre adds exactly its external id to the existence test. -/
theorem genre_exists_create (s : St) (gid x : Int) (name : String) :
    genre_exists (create_genre s gid name).2.genres x =
      (genre_exists s.genres x || (gid == x)) := by
  simp [genre_exists, create_genre, List.any_append]

/-- The existence test is monotone under appending records. -/
theorem genre_exists_append (gs extra : List Genre) (x : Int)
    (h : genre_exists gs x = true) : genre_exists (gs ++ extra) x = true := by
  simp only [genre_exists, List.any_append, Bool.or_eq_true]
  exact Or.inl h

/-- Core induction for C6: with pairwise-distinct upstream ids, the loop
creates exactly the missing ids (appended, in upstream order), skips exactly
the present ones, and leaves the pre-existing genre records untouched. -/
theorem sync_new_loop_spec :
    ∀ (upstream : List GenreData) (s : St),
      (upstream.map GenreData.id).Nodup →
      (sync_new_loop upstream s).1 =
        (upstream.filter (fun g => ¬ genre_exists s.genres g.id)).length ∧
      (sync_new_loop upstream s).2.1 =
        (upstream.filter (fun g => genre_exists s.genres g.id)).length ∧
      (∃ newGenres,
        (sync_new_loop upstream s).2.2.genres = s.genres ++ newGenres ∧
        newGenres.map Genre.tmdb_genre_id =
          (upstream.filter (fun g => ¬ genre_exists s.genres g.id)).map
            GenreData.id) ∧
      (∀ g ∈ upstream,
        genre_exists (sync_new_loop upstream s).2.2.genres g.id = true) := by
  intro upstream
  induction upstream with
  | nil =>
    intro s _
    exact ⟨rfl, rfl, ⟨[], by simp [sync_new_loop], by simp⟩, by simp⟩
  | cons g rest ih =>
    intro s hnd
    have hg : g.id ∉ rest.map GenreData.id := (List.nodup_cons.mp hnd).1
    have hndr : (rest.map GenreData.id).Nodup := (List.nodup_cons.mp hnd).2
    by_cases hex : genre_exists s.genres g.id
    · have ihr := ih s hndr
      refine ⟨?_, ?_, ?_, ?_⟩
      · simpa [sync_new_loop, hex] using ihr.1
      · simpa [sync_new_loop, hex] using ihr.2.1
      · simpa [sync_new_loop, hex] using ihr.2.2.1
      · intro x hx
        rcases List.mem_cons.mp hx with h1 | h2
        · subst h1
          obtain ⟨newG, hng, _⟩ := ihr.2.2.1
          simp only [sync_new_loop, hex, if_true]
          rw [hng]
          exact genre_exists_append _ _ _ hex
        · simpa [sync_new_loop, hex] using ihr.2.2.2 x h2
    · have hexf : genre_exists s.genres g.id = false := by
        simpa using hex
      set s' := (create_genre s g.id g.name).2 with hs'
      have hagree : ∀ x ∈ rest, genre_exists s'.genres x.id =
          genre_exists s.genres x.id := by
        intro x hx
        rw [hs', genre_exists_create]
        have : (g.id == x.id) = false := by
          simp only [beq_eq_false_iff_ne, ne_eq]
          intro hxe
          exact hg (hxe ▸ List.mem_map_of_mem GenreData.id hx)
        simp [this]
      have ihr := ih s' hndr
      have hfilt1 : rest.filter (fun x => ¬ genre_exists s'.genres x.id) =
          rest.filter (fun x => ¬ genre_exists s.genres x.id) :=
        List.filter_congr (fun x hx => by simp [hagree x hx])
      have hfilt2 : rest.filter (fun x => genre_exists s'.genres x.id) =
          rest.filter (fun x => genre_exists s.genres x.id) :=
        List.filter_congr (fun x hx => by simp [hagree x hx])
      refine ⟨?_, ?_, ?_, ?_⟩
      · have := ihr.1
        rw [hfilt1] at this
        simpa [sync_new_loop, hexf] using this
      · have := ihr.2.1
        rw [hfilt2] at this
        simpa [sync_new_loop, hexf] using this
      · obtain ⟨newG, hng, hids⟩ := ihr.2.2.1
        refine ⟨{ id := s.nextId, tmdb_genre_id := g.id, name := g.name } :: newG,
          ?_, ?_⟩
        · simp only [sync_new_loop, hexf, Bool.false_eq_true, if_false]
          rw [hng, hs']
          simp [create_genre]
        · simp only [List.map_cons]
          rw [hids, hfilt1]
          simp [hexf]
      · intro x hx
        rcases List.mem_cons.mp hx with h1 | h2
        · subst h1
          obtain ⟨newG, hng, _⟩ := ihr.2.2.1
          simp only [sync_new_loop, hexf, Bool.false_eq_true, if_false]
          rw [hng]
          refine genre_exists_append _ _ _ ?_
          rw [hs', genre_exists_create]
          simp
        · simpa [sync_new_loop, hexf] using ihr.2.2.2 x h2

/-- The missing and present upstream entries partition the upstream list. -/
theorem length_filter_genre_split (l : List GenreData) (gs : List Genre) :
    (l.filter (fun g => ¬ genre_exists gs g.id)).length +
      (l.filter (fun g => genre_exists gs g.id)).length = l.length := by
  induction l with
  | nil => rfl
  | cons x l ih =>
    by_cases h : genre_exists gs x.id <;>
      simp only [List.filter_cons, h, decide_not, Bool.not_true, Bool.not_false,
        decide_True, decide_False, List.length_cons] at ih ⊢ <;>
      simp at ih ⊢ <;> omega

/-- C6: with pairwise-distinct upstream genre ids, `syncNewOnly` creates
exactly the genres whose external id is missing locally, never modifies an
existing genre record (the prior table is an untouched prefix of the final
one), and reports created = number missing, skipped = number present,
total = created + skipped = upstream length (and synced = 0). -/
theorem c6_sync_only_new_genres (upstream : List GenreData) (s : St)
    (hnd : (upstream.map GenreData.id).Nodup) :
    (sync_only_new_genres_from_tmdb upstream s).1.created =
      (upstream.filter (fun g => ¬ genre_exists s.genres g.id)).length ∧
    (sync_only_new_genres_from_tmdb upstream s).1.skipped =
      (upstream.filter (fun g => genre_exists s.genres g.id)).length ∧
    (sync_only_new_genres_from_tmdb upstream s).1.total =
      (sync_only_new_genres_from_tmdb upstream s).1.created +
        (sync_only_new_genres_from_tmdb upstream s).1.skipped ∧
    (sync_only_new_genres_from_tmdb upstream s).1.total = upstream.length ∧
    (sync_only_new_genres_from_tmdb upstream s).1.synced = 0 ∧
    (∃ newGenres,
      (sync_only_new_genres_from_tmdb upstream s).2.genres =
        s.genres ++ newGenres ∧
      newGenres.map Genre.tmdb_genre_id =
        (upstream.filter (fun g => ¬ genre_exists s.genres g.id)).map
          GenreData.id) ∧
    (∀ g ∈ upstream,
      genre_exists (sync_only_new_genres_from_tmdb upstream s).2.genres g.id =
        true) := by
  obtain ⟨h1, h2, h3, h4⟩ := sync_new_loop_spec upstream s hnd
  refine ⟨h1, h2, rfl, ?_, rfl, h3, h4⟩
  show (sync_new_loop upstream s).1 + (sync_new_loop upstream s).2.1 =
    upstream.length
  rw [h1, h2]
  exact length_filter_genre_split upstream s.genres

/-- Five upstream genres for the C6 witness scenario. -/
def c6exUpstream : List GenreData :=
  [{ id := 28, name := "Action" }, { id := 12, name := "Adventure" },
   { id := 16, name := "Animation" }, { id := 35, name := "Comedy" },
   { id := 80, name := "Crime" }]

/-- A local store already holding two of the five genres. -/
def c6exStore : St :=
  { movies := []
    genres := [{ id := 1, tmdb_genre_id := 28, name := "Action" },
               { id := 2, tmdb_genre_id := 12, name := "Adventure" }]
    partners := []
    nextId := 3 }

/-- Witness for C6: five upstream genres of which two already exist locally
give created 3, skipped 2, total 5. -/
theorem c6_sync_only_new_genres_witness :
    (sync_only_new_genres_from_tmdb c6exUpstream c6exStore).1.created = 3 ∧
    (sync_only_new_genres_from_tmdb c6exUpstream c6exStore).1.skipped = 2 ∧
    (sync_only_new_genres_from_tmdb c6exUpstream c6exStore).1.total = 5 := by
  have h := c6_sync_only_new_genres c6exUpstream c6exStore (by decide)
  exact ⟨h.1.trans (by decide), h.2.1.trans (by decide),
    h.2.2.2.1.trans (by decide)⟩

/-- Python truthiness of an optional string: `None` and `""` are falsy. -/
def truthyStr : Option String → Bool
  | none => false
  | some s => !(s == "")

/-- The per-record image update performed by
`ResPartner.update_image_from_tmdb_profile`'s final `write`. -/
def imgSet (img pp : String) (pid : Nat) (p : Partner) : Partner :=
  if p.id = pid then
    { p with image_1920 := some img, tmdb_profile_path := some pp }
  else p

/-- Embeds `ResPartner.update_image_from_tmdb_profile`
(models/res_partner_inherit.py lines 66-90): return `False` and change
nothing on a falsy profile path or a failed download (the exception is
caught and logged); on success write the image and remember the path. -/
def update_image_from_tmdb_profile (download : String → Option String)
    (s : St) (pid : Nat) (profile_path : Option String) : Bool × St :=
  if !truthyStr profile_path then (false, s)
  else
    let pp := profile_path.getD ""
    match download pp with
    | none => (false, s)
    | some img => (true, { s with partners := s.partners.map (imgSet img pp pid) })

/-- The `actor_vals` dict of `find_or_create_actor_contact` as a fresh
partner record. -/
def mkActorPartner (s : St) (name : String) : Partner :=
  { id := s.nextId, name := name, is_company := false,
    is_director := false, is_actor := true, function := some "Actor",
    image_1920 := none, tmdb_profile_path := none }

/-- The `contact_vals` dict of `find_or_create_director_contact_simple` as a
fresh partner record. -/
def mkDirectorPartner (s : St) (name : String) : Partner :=
  { id := s.nextId, name := name, is_company := false,
    is_director := true, is_actor := false,
    function := some "Film Director",
    image_1920 := none, tmdb_profile_path := none }

/-- Embeds `TMDBMovie.find_or_create_actor_contact`
(models/tmdb_movie.py lines 224-256): `None` for a falsy name; otherwise
look up the first contact with the exact name and `is_actor` set, backfilling
the image only when the contact has none and a profile path was supplied;
otherwise create the contact (role flag, job title "Actor") and attempt the
image attach, which is never fatal. -/
def find_or_create_actor_contact (download : String → Option String) (s : St)
    (actor_name profile_path : Option String) : Option Nat × St :=
  if !truthyStr actor_name then (none, s)
  else
    let name := actor_name.getD ""
    match s.partners.find? (fun p => p.name == name && p.is_actor) with
    | some p =>
      if truthyStr profile_path && p.image_1920.isNone then
        (some p.id, (update_image_from_tmdb_profile download s p.id profile_path).2)
      else (some p.id, s)
    | none =>
      let newP := mkActorPartner s name
      let s1 : St :=
        { s with partners := s.partners ++ [newP], nextId := s.nextId + 1 }
      if truthyStr profile_path then
        (some newP.id,
          (update_image_from_tmdb_profile download s1 newP.id profile_path).2)
      else (some newP.id, s1)

/-- Embeds `TMDBContactUtils.find_or_create_director_contact_simple`
(models/tmdb_utils_contact.py lines 12-47): the same flow as the actor
variant with the `is_director` flag and job title "Film Director". -/
def find_or_create_director_contact_simple (download : String → Option String)
    (s : St) (director_name profile_path : Option String) : Option Nat × St :=
  if !truthyStr director_name then (none, s)
  else
    let name := director_name.getD ""
    match s.partners.find? (fun p => p.name == name && p.is_director) with
    | some p =>
      if truthyStr profile_path && p.image_1920.isNone then
        (some p.id, (update_image_from_tmdb_profile download s p.id profile_path).2)
      else (some p.id, s)
    | none =>
      let newP := mkDirectorPartner s name
      let s1 : St :=
        { s with partners := s.partners ++ [newP], nextId := s.nextId + 1 }
      if truthyStr profile_path then
        (some newP.id,
          (update_image_from_tmdb_profile download s1 newP.id profile_path).2)
      else (some newP.id, s1)

/-- The image updater changes neither id, name, role flags, nor anything
outside the two image fields. -/
theorem imgSet_fields (img pp : String) (pid : Nat) (p : Partner) :
    (imgSet img pp pid p).id = p.id ∧ (imgSet img pp pid p).name = p.name ∧
    (imgSet img pp pid p).is_actor = p.is_actor ∧
    (imgSet img pp pid p).is_director = p.is_director := by
  unfold imgSet
  split <;> simp

/-- `update_image_from_tmdb_profile` only rewrites partner image fields:
movies, genres, id counter and the partner-list length are untouched, and
each partner keeps id, name and role flags. -/
theorem update_image_shape (download : String → Option String) (s : St)
    (pid : Nat) (pp : Option String) :
    ∃ u : Partner → Partner,
      (∀ q, (u q).id = q.id ∧ (u q).name = q.name ∧
        (u q).is_actor = q.is_actor ∧ (u q).is_director = q.is_director) ∧
      (update_image_from_tmdb_profile download s pid pp).2.partners =
        s.partners.map u ∧
      (update_image_from_tmdb_profile download s pid pp).2.movies = s.movies ∧
      (update_image_from_tmdb_profile download s pid pp).2.genres = s.genres ∧
      (update_image_from_tmdb_profile download s pid pp).2.nextId = s.nextId := by
  unfold update_image_from_tmdb_profile
  by_cases ht : truthyStr pp
  · simp only [ht, Bool.not_true, Bool.false_eq_true, if_false]
    cases hdl : download (pp.getD "") with
    | none =>
      refine ⟨id, ?_, ?_, rfl, rfl, rfl⟩
      · simp
      · simp
    | some img =>
      exact ⟨imgSet img (pp.getD "") pid, fun q => imgSet_fields _ _ _ q,
        rfl, rfl, rfl, rfl⟩
  · simp only [Bool.not_eq_true] at ht
    simp only [ht, Bool.not_false, if_true]
    refine ⟨id, ?_, ?_, trivial, trivial, trivial⟩
    · simp
    · simp

/-- `find?` over a list mapped by a predicate-preserving function finds the
image of what `find?` finds. -/
theorem find?_map_invariant (u : Partner → Partner) (pred : Partner → Bool)
    (hu : ∀ q, pred (u q) = pred q) :
    ∀ l : List Partner, (l.map u).find? pred = (l.find? pred).map u := by
  intro l
  induction l with
  | nil => rfl
  | cons p l ih =>
    by_cases hp : pred p
    · simp [List.find?_cons, hu, hp]
    · simp only [List.map_cons, List.find?_cons, hu p, hp]
      exact ih

/-- A partner transformation that changes neither id, name, nor role flags. -/
def partnerPreserves (u : Partner → Partner) : Prop :=
  ∀ q, (u q).id = q.id ∧ (u q).name = q.name ∧
    (u q).is_actor = q.is_actor ∧ (u q).is_director = q.is_director

/-- Shape of an actor resolution with a truthy name: it returns a contact id;
the partner table becomes the old one plus at most one created record, imaged
by a field-preserving update; movies and genres are untouched; and the result
id is the looked-up contact's when the lookup hits, else the fresh record's. -/
theorem actor_call_shape (download : String → Option String) (s : St)
    (nm pp : Option String) (hname : truthyStr nm = true) :
    ∃ (u : Partner → Partner) (ext : List Partner) (pid : Nat),
      partnerPreserves u ∧
      (find_or_create_actor_contact download s nm pp).1 = some pid ∧
      (find_or_create_actor_contact download s nm pp).2.partners =
        (s.partners ++ ext).map u ∧
      (find_or_create_actor_contact download s nm pp).2.movies = s.movies ∧
      (find_or_create_actor_contact download s nm pp).2.genres = s.genres ∧
      ((∃ p, s.partners.find? (fun q => q.name == nm.getD "" && q.is_actor) =
          some p ∧ ext = [] ∧ pid = p.id) ∨
        (s.partners.find? (fun q => q.name == nm.getD "" && q.is_actor) =
          none ∧ ext = [mkActorPartner s (nm.getD "")] ∧ pid = s.nextId)) := by
  unfold find_or_create_actor_contact
  simp only [hname, Bool.not_true, Bool.false_eq_true, if_false]
  cases hfind : s.partners.find? (fun q => q.name == nm.getD "" && q.is_actor) with
  | some p =>
    dsimp only
    by_cases himg : (truthyStr pp && p.image_1920.isNone) = true
    · obtain ⟨u, hu, hpart, hmov, hgen, _⟩ := update_image_shape download s p.id pp
      rw [if_pos himg]
      exact ⟨u, [], p.id, hu, rfl, by simpa using hpart, hmov, hgen,
        Or.inl ⟨p, rfl, rfl, rfl⟩⟩
    · rw [if_neg himg]
      exact ⟨id, [], p.id, by intro q; simp, rfl, by simp, rfl, rfl,
        Or.inl ⟨p, rfl, rfl, rfl⟩⟩
  | none =>
    dsimp only
    by_cases hpp : truthyStr pp = true
    · rw [if_pos hpp]
      obtain ⟨u, hu, hpart, hmov, hgen, _⟩ := update_image_shape download
        { s with
          partners := s.partners ++ [mkActorPartner s (nm.getD "")]
          nextId := s.nextId + 1 }
        (mkActorPartner s (nm.getD "")).id pp
      exact ⟨u, [mkActorPartner s (nm.getD "")], s.nextId, hu, rfl, hpart,
        hmov, hgen, Or.inr ⟨rfl, rfl, rfl⟩⟩
    · rw [if_neg hpp]
      exact ⟨id, [mkActorPartner s (nm.getD "")], s.nextId,
        by intro q; simp, rfl, by simp, rfl, rfl, Or.inr ⟨rfl, rfl, rfl⟩⟩

/-- Shape of a director resolution with a truthy name; the director analogue
of the actor shape lemma. -/
theorem director_call_shape (download : String → Option String) (s : St)
    (nm pp : Option String) (hname : truthyStr nm = true) :
    ∃ (u : Partner → Partner) (ext : List Partner) (pid : Nat),
      partnerPreserves u ∧
      (find_or_create_director_contact_simple download s nm pp).1 = some pid ∧
      (find_or_create_director_contact_simple download s nm pp).2.partners =
        (s.partners ++ ext).map u ∧
      (find_or_create_director_contact_simple download s nm pp).2.movies =
        s.movies ∧
      (find_or_create_director_contact_simple download s nm pp).2.genres =
        s.genres ∧
      ((∃ p, s.partners.find? (fun q => q.name == nm.getD "" && q.is_director) =
          some p ∧ ext = [] ∧ pid = p.id) ∨
        (s.partners.find? (fun q => q.name == nm.getD "" && q.is_director) =
          none ∧ ext = [mkDirectorPartner s (nm.getD "")] ∧ pid = s.nextId)) := by
  unfold find_or_create_director_contact_simple
  simp only [hname, Bool.not_true, Bool.false_eq_true, if_false]
  cases hfind : s.partners.find? (fun q => q.name == nm.getD "" && q.is_director) with
  | some p =>
    dsimp only
    by_cases himg : (truthyStr pp && p.image_1920.isNone) = true
    · obtain ⟨u, hu, hpart, hmov, hgen, _⟩ := update_image_shape download s p.id pp
      rw [if_pos himg]
      exact ⟨u, [], p.id, hu, rfl, by simpa using hpart, hmov, hgen,
        Or.inl ⟨p, rfl, rfl, rfl⟩⟩
    · rw [if_neg himg]
      exact ⟨id, [], p.id, by intro q; simp, rfl, by simp, rfl, rfl,
        Or.inl ⟨p, rfl, rfl, rfl⟩⟩
  | none =>
    dsimp only
    by_cases hpp : truthyStr pp = true
    · rw [if_pos hpp]
      obtain ⟨u, hu, hpart, hmov, hgen, _⟩ := update_image_shape download
        { s with
          partners := s.partners ++ [mkDirectorPartner s (nm.getD "")]
          nextId := s.nextId + 1 }
        (mkDirectorPartner s (nm.getD "")).id pp
      exact ⟨u, [mkDirectorPartner s (nm.getD "")], s.nextId, hu, rfl, hpart,
        hmov, hgen, Or.inr ⟨rfl, rfl, rfl⟩⟩
    · rw [if_neg hpp]
      exact ⟨id, [mkDirectorPartner s (nm.getD "")], s.nextId,
        by intro q; simp, rfl, by simp, rfl, rfl, Or.inr ⟨rfl, rfl, rfl⟩⟩

/-- Resolving the same actor name twice returns the same contact on the
second call and creates no second record. -/
theorem actor_second_call (download download2 : String → Option String)
    (s : St) (nm pp pp2 : Option String) (hname : truthyStr nm = true) :
    (find_or_create_actor_contact download2
        (find_or_create_actor_contact download s nm pp).2 nm pp2).1 =
      (find_or_create_actor_contact download s nm pp).1 ∧
    (find_or_create_actor_contact download2
        (find_or_create_actor_contact download s nm pp).2 nm pp2).2.partners.length =
      (find_or_create_actor_contact download s nm pp).2.partners.length := by
  obtain ⟨u, ext, pid, hu, hr1, hpart, hmov, hgen, hcase⟩ :=
    actor_call_shape download s nm pp hname
  have hpredu : ∀ q, ((u q).name == nm.getD "" && (u q).is_actor) =
      (q.name == nm.getD "" && q.is_actor) := by
    intro q
    rw [(hu q).2.1, (hu q).2.2.1]
  obtain ⟨u2, ext2, pid2, hu2, hr2, hpart2, _, _, hcase2⟩ :=
    actor_call_shape download2 (find_or_create_actor_contact download s nm pp).2
      nm pp2 hname
  rcases hcase with ⟨p, hfp, hext, hpid⟩ | ⟨hfn, hext, hpid⟩
  · have hf1 : (find_or_create_actor_contact download s nm pp).2.partners.find?
        (fun q => q.name == nm.getD "" && q.is_actor) = some (u p) := by
      rw [hpart, hext, List.append_nil,
        find?_map_invariant u (fun q => q.name == nm.getD "" && q.is_actor)
          hpredu, hfp, Option.map_some']
    rcases hcase2 with ⟨p2, hfp2, hext2, hpid2⟩ | ⟨hfn2, _, _⟩
    · have hp2 : p2 = u p := by
        rw [hf1] at hfp2
        exact (Option.some.inj hfp2).symm
      constructor
      · rw [hr2, hr1, hpid2, hp2, (hu p).1, hpid]
      · rw [hpart2, hext2, List.append_nil, List.length_map]
    · rw [hf1] at hfn2
      exact absurd hfn2 (by simp)
  · have hnewfound : ([mkActorPartner s (nm.getD "")].find?
        (fun q => q.name == nm.getD "" && q.is_actor)) =
        some (mkActorPartner s (nm.getD "")) := by
      simp [mkActorPartner]
    have hf1 : (find_or_create_actor_contact download s nm pp).2.partners.find?
        (fun q => q.name == nm.getD "" && q.is_actor) =
        some (u (mkActorPartner s (nm.getD ""))) := by
      rw [hpart, hext,
        find?_map_invariant u (fun q => q.name == nm.getD "" && q.is_actor)
          hpredu, List.find?_append, hfn, hnewfound, Option.none_or,
        Option.map_some']
    rcases hcase2 with ⟨p2, hfp2, hext2, hpid2⟩ | ⟨hfn2, _, _⟩
    · have hp2 : p2 = u (mkActorPartner s (nm.getD "")) := by
        rw [hf1] at hfp2
        exact (Option.some.inj hfp2).symm
      constructor
      · rw [hr2, hr1, hpid2, hp2, (hu _).1, hpid]
        rfl
      · rw [hpart2, hext2, List.append_nil, List.length_map]
    · rw [hf1] at hfn2
      exact absurd hfn2 (by simp)

/-- Resolving the same director name twice returns the same contact on the
second call and creates no second record. -/
theorem director_second_call (download download2 : String → Option String)
    (s : St) (nm pp pp2 : Option String) (hname : truthyStr nm = true) :
    (find_or_create_director_contact_simple download2
        (find_or_create_director_contact_simple download s nm pp).2 nm pp2).1 =
      (find_or_create_director_contact_simple download s nm pp).1 ∧
    (find_or_create_director_contact_simple download2
        (find_or_create_director_contact_simple download s nm pp).2
          nm pp2).2.partners.length =
      (find_or_create_director_contact_simple download s nm pp).2.partners.length := by
  obtain ⟨u, ext, pid, hu, hr1, hpart, hmov, hgen, hcase⟩ :=
    director_call_shape download s nm pp hname
  have hpredu : ∀ q, ((u q).name == nm.getD "" && (u q).is_director) =
      (q.name == nm.getD "" && q.is_director) := by
    intro q
    rw [(hu q).2.1, (hu q).2.2.2]
  obtain ⟨u2, ext2, pid2, hu2, hr2, hpart2, _, _, hcase2⟩ :=
    director_call_shape download2
      (find_or_create_director_contact_simple download s nm pp).2 nm pp2 hname
  rcases hcase with ⟨p, hfp, hext, hpid⟩ | ⟨hfn, hext, hpid⟩
  · have hf1 : (find_or_create_director_contact_simple
        download s nm pp).2.partners.find?
        (fun q => q.name == nm.getD "" && q.is_director) = some (u p) := by
      rw [hpart, hext, List.append_nil,
        find?_map_invariant u (fun q => q.name == nm.getD "" && q.is_director)
          hpredu, hfp, Option.map_some']
    rcases hcase2 with ⟨p2, hfp2, hext2, hpid2⟩ | ⟨hfn2, _, _⟩
    · have hp2 : p2 = u p := by
        rw [hf1] at hfp2
        exact (Option.some.inj hfp2).symm
      constructor
      · rw [hr2, hr1, hpid2, hp2, (hu p).1, hpid]
      · rw [hpart2, hext2, List.append_nil, List.length_map]
    · rw [hf1] at hfn2
      exact absurd hfn2 (by simp)
  · have hnewfound : ([mkDirectorPartner s (nm.getD "")].find?
        (fun q => q.name == nm.getD "" && q.is_director)) =
        some (mkDirectorPartner s (nm.getD "")) := by
      simp [mkDirectorPartner]
    have hf1 : (find_or_create_director_contact_simple
        download s nm pp).2.partners.find?
        (fun q => q.name == nm.getD "" && q.is_director) =
        some (u (mkDirectorPartner s (nm.getD ""))) := by
      rw [hpart, hext,
        find?_map_invariant u (fun q => q.name == nm.getD "" && q.is_director)
          hpredu, List.find?_append, hfn, hnewfound, Option.none_or,
        Option.map_some']
    rcases hcase2 with ⟨p2, hfp2, hext2, hpid2⟩ | ⟨hfn2, _, _⟩
    · have hp2 : p2 = u (mkDirectorPartner s (nm.getD "")) := by
        rw [hf1] at hfp2
        exact (Option.some.inj hfp2).symm
      constructor
      · rw [hr2, hr1, hpid2, hp2, (hu _).1, hpid]
        rfl
      · rw [hpart2, hext2, List.append_nil, List.length_map]
    · rw [hf1] at hfn2
      exact absurd hfn2 (by simp)

/-- C7: person resolution returns null immediately for an empty or null name
(both roles); for a truthy name it always returns a contact — in particular
an image download failure never aborts resolution; resolving the same name
with the same role twice returns the existing contact on the second call and
creates no duplicate record; and for a found contact a supplied profile image
is attached only when the contact currently has no image (image present:
nothing changes; image absent with successful download: the image is written;
image absent with failed download: resolution still returns the contact and
the store is unchanged). -/
theorem c7_person_resolution (download download2 : String → Option String)
    (s : St) (nm pp pp2 : Option String) :
    find_or_create_actor_contact download s none pp = (none, s) ∧
    find_or_create_actor_contact download s (some "") pp = (none, s) ∧
    find_or_create_director_contact_simple download s none pp = (none, s) ∧
    find_or_create_director_contact_simple download s (some "") pp = (none, s) ∧
    (truthyStr nm = true →
      (find_or_create_actor_contact download s nm pp).1.isSome = true ∧
      (find_or_create_director_contact_simple download s nm pp).1.isSome = true) ∧
    (truthyStr nm = true →
      (find_or_create_actor_contact download2
          (find_or_create_actor_contact download s nm pp).2 nm pp2).1 =
        (find_or_create_actor_contact download s nm pp).1 ∧
      (find_or_create_actor_contact download2
          (find_or_create_actor_contact download s nm pp).2
            nm pp2).2.partners.length =
        (find_or_create_actor_contact download s nm pp).2.partners.length ∧
      (find_or_create_director_contact_simple download2
          (find_or_create_director_contact_simple download s nm pp).2 nm pp2).1 =
        (find_or_create_director_contact_simple download s nm pp).1 ∧
      (find_or_create_director_contact_simple download2
          (find_or_create_director_contact_simple download s nm pp).2
            nm pp2).2.partners.length =
        (find_or_create_director_contact_simple download s nm pp).2.partners.length) ∧
    (truthyStr nm = true → ∀ p,
      s.partners.find? (fun q => q.name == nm.getD "" && q.is_actor) = some p →
      (p.image_1920.isSome = true →
        find_or_create_actor_contact download s nm pp = (some p.id, s)) ∧
      (∀ img, p.image_1920 = none → truthyStr pp = true →
        download (pp.getD "") = some img →
        (find_or_create_actor_contact download s nm pp).1 = some p.id ∧
        (find_or_create_actor_contact download s nm pp).2.partners =
          s.partners.map (imgSet img (pp.getD "") p.id)) ∧
      (p.image_1920 = none → truthyStr pp = true →
        download (pp.getD "") = none →
        find_or_create_actor_contact download s nm pp = (some p.id, s))) := by
  refine ⟨by simp [find_or_create_actor_contact, truthyStr],
    by simp [find_or_create_actor_contact, truthyStr],
    by simp [find_or_create_director_contact_simple, truthyStr],
    by simp [find_or_create_director_contact_simple, truthyStr],
    ?_, ?_, ?_⟩
  · intro hname
    obtain ⟨u, ext, pid, _, hr1, _⟩ := actor_call_shape download s nm pp hname
    obtain ⟨u', ext', pid', _, hr1', _⟩ :=
      director_call_shape download s nm pp hname
    rw [hr1, hr1']
    exact ⟨rfl, rfl⟩
  · intro hname
    obtain ⟨ha1, ha2⟩ := actor_second_call download download2 s nm pp pp2 hname
    obtain ⟨hd1, hd2⟩ := director_second_call download download2 s nm pp pp2 hname
    exact ⟨ha1, ha2, hd1, hd2⟩
  · intro hname p hfp
    refine ⟨?_, ?_, ?_⟩
    · intro himg
      unfold find_or_create_actor_contact
      simp only [hname, Bool.not_true, Bool.false_eq_true, if_false]
      rw [hfp]
      dsimp only
      rw [if_neg]
      simp only [Bool.and_eq_true, not_and]
      intro _
      simp [Option.isNone_iff_eq_none]
      intro hcontra
      rw [hcontra] at himg
      simp at himg
    · intro img himg hpp hdl
      unfold find_or_create_actor_contact
      simp only [hname, Bool.not_true, Bool.false_eq_true, if_false]
      rw [hfp]
      dsimp only
      rw [if_pos (by simp [hpp, himg])]
      unfold update_image_from_tmdb_profile
      simp only [hpp, Bool.not_true, Bool.false_eq_true, if_false]
      rw [hdl]
      exact ⟨trivial, rfl⟩
    · intro himg hpp hdl
      unfold find_or_create_actor_contact
      simp only [hname, Bool.not_true, Bool.false_eq_true, if_false]
      rw [hfp]
      dsimp only
      rw [if_pos (by simp [hpp, himg])]
      unfold update_image_from_tmdb_profile
      simp only [hpp, Bool.not_true, Bool.false_eq_true, if_false]
      rw [hdl]

/-- An empty store for the C7 witness scenario. -/
def c7exStore : St :=
  { movies := [], genres := [], partners := [], nextId := 1 }

/-- An image download oracle that always fails. -/
def c7exDownload : String → Option String :=
  fun _ => none

/-- Witness for C7: resolving the actor "Mark Hamill" twice against an empty
store — with a profile path whose download always fails — still returns the
same contact both times and leaves exactly the records of the first call
(no duplicate), showing download failure is not fatal. -/
theorem c7_person_resolution_witness :
    (find_or_create_actor_contact c7exDownload
        (find_or_create_actor_contact c7exDownload c7exStore
          (some "Mark Hamill") (some "/mh.jpg")).2
        (some "Mark Hamill") (some "/mh.jpg")).1 =
      (find_or_create_actor_contact c7exDownload c7exStore
        (some "Mark Hamill") (some "/mh.jpg")).1 ∧
    (find_or_create_actor_contact c7exDownload
        (find_or_create_actor_contact c7exDownload c7exStore
          (some "Mark Hamill") (some "/mh.jpg")).2
        (some "Mark Hamill") (some "/mh.jpg")).2.partners.length =
      (find_or_create_actor_contact c7exDownload c7exStore
        (some "Mark Hamill") (some "/mh.jpg")).2.partners.length :=
  let h := (c7_person_resolution c7exDownload c7exDownload c7exStore
    (some "Mark Hamill") (some "/mh.jpg") (some "/mh.jpg")).2.2.2.2.2.1
    (by decide)
  ⟨h.1, h.2.1⟩

/-- Embeds `TMDBMovie.validate_date` (models/tmdb_movie.py lines 438-444):
raise iff a release date is set and lies after today. -/
def validate_date (today : Int) (m : Movie) : Bool :=
  match m.release_date with
  | some d => !(decide (d > today))
  | none => true

/-- Embeds `TMDBMovie.validate_vote_average` (lines 446-452): raise iff the
vote average is below 0 or above 10. -/
def validate_vote_average (m : Movie) : Bool :=
  !(decide (m.vote_average < 0) || decide (m.vote_average > 10))

/-- Embeds `TMDBMovie.validate_vote_count` (lines 454-460): raise iff the
vote count is negative. -/
def validate_vote_count (m : Movie) : Bool :=
  !(decide (m.vote_count < 0))

/-- `search_count([("tmdb_id", "=", t)])` over the movie table. -/
def search_count_tmdb_id (movies : List Movie) (t : Int) : Nat :=
  (movies.filter (fun m => m.tmdb_id == t)).length

/-- Embeds `TMDBMovie.validate_unique_tmdb_id` (lines 462-468): raise iff
more than one stored record (the written one included) carries the id. -/
def validate_unique_tmdb_id (movies : List Movie) (m : Movie) : Bool :=
  !(decide (search_count_tmdb_id movies m.tmdb_id > 1))

/-- All four `@api.constrains` validators of `tmdb.movie` on one record over
the post-write table. -/
def run_movie_constraints (today : Int) (movies : List Movie) (m : Movie) : Bool :=
  validate_date today m && validate_vote_average m && validate_vote_count m &&
    validate_unique_tmdb_id movies m

/-- Odoo `create` on `tmdb.movie` at the store level: append the record and
run the constraint validators on it; a violation raises `ValidationError`,
aborting the write. -/
def create_movie_record (today : Int) (movies : List Movie) (m : Movie) :
    Except String (List Movie) :=
  let movies' := movies ++ [m]
  if run_movie_constraints today movies' m then Except.ok movies'
  else Except.error "ValidationError"

/-- Odoo `write` on a selected set of `tmdb.movie` records: apply the update
to every selected record and run the constraint validators on each written
record over the post-write table; any violation raises `ValidationError`,
aborting the write. -/
def write_movie_records (today : Int) (movies : List Movie)
    (sel : Movie → Bool) (upd : Movie → Movie) : Except String (List Movie) :=
  let movies' := movies.map (fun m => if sel m then upd m else m)
  if movies.all (fun m => !sel m || run_movie_constraints today movies' (upd m))
  then Except.ok movies' else Except.error "ValidationError"

/-- The per-record part of the §3 invariants: vote average in [0,10],
non-negative vote count, release date not in the future. -/
def movieLocalInv (today : Int) (m : Movie) : Prop :=
  0 ≤ m.vote_average ∧ m.vote_average ≤ 10 ∧ 0 ≤ m.vote_count ∧
    (∀ d, m.release_date = some d → d ≤ today)

/-- The full §3 store invariant: every record satisfies the local bounds and
no external id occurs more than once. -/
def moviesInv (today : Int) (movies : List Movie) : Prop :=
  (∀ m ∈ movies, movieLocalInv today m) ∧
    ∀ t, search_count_tmdb_id movies t ≤ 1

/-- The four validators pass on a record exactly when it satisfies the local
bounds and its external id occurs at most once in the table. -/
theorem run_movie_constraints_iff (today : Int) (movies : List Movie)
    (m : Movie) :
    run_movie_constraints today movies m = true ↔
      (movieLocalInv today m ∧
        search_count_tmdb_id movies m.tmdb_id ≤ 1) := by
  unfold run_movie_constraints validate_date validate_vote_average
    validate_vote_count validate_unique_tmdb_id movieLocalInv
  cases hrd : m.release_date with
  | none =>
    simp [hrd, not_lt, and_assoc]
  | some d =>
    simp [hrd, not_lt, and_assoc]
    tauto

/-- Appending a record adds one to the count of its own id and nothing to
any other count. -/
theorem search_count_append (movies : List Movie) (m : Movie) (t : Int) :
    search_count_tmdb_id (movies ++ [m]) t =
      search_count_tmdb_id movies t + (if m.tmdb_id = t then 1 else 0) := by
  unfold search_count_tmdb_id
  rw [List.filter_append]
  by_cases h : m.tmdb_id = t <;> simp [h]

/-- An update whose written records avoid the id `t` cannot increase the
count of `t`. -/
theorem search_count_update_le (sel : Movie → Bool) (upd : Movie → Movie)
    (t : Int) :
    ∀ movies : List Movie,
      (∀ m ∈ movies, sel m = true → (upd m).tmdb_id ≠ t) →
      search_count_tmdb_id
          (movies.map (fun m => if sel m then upd m else m)) t ≤
        search_count_tmdb_id movies t := by
  intro movies
  induction movies with
  | nil => intro _; simp [search_count_tmdb_id]
  | cons m rest ih =>
    intro h
    have hrest := ih fun x hx => h x (List.mem_cons_of_mem _ hx)
    unfold search_count_tmdb_id at hrest ⊢
    simp only [List.map_cons, List.filter_cons]
    by_cases hsel : sel m = true
    · have hne : ¬ ((upd m).tmdb_id == t) = true := by
        simp only [beq_iff_eq]
        exact h m (List.mem_cons_self _ _) hsel
      rw [if_pos hsel, if_neg hne]
      by_cases hmt : (m.tmdb_id == t) = true
      · rw [if_pos hmt]
        simp only [List.length_cons]
        omega
      · rw [if_neg hmt]
        exact hrest
    · rw [if_neg hsel]
      by_cases hmt : (m.tmdb_id == t) = true
      · rw [if_pos hmt, if_pos hmt]
        simp only [List.length_cons]
        omega
      · rw [if_neg hmt, if_neg hmt]
        exact hrest

/-- C4: a movie accepted by a create or update satisfies the four §3
invariants, and writes preserve them store-wide: starting from a store whose
records all have vote_average in [0,10], vote_count ≥ 0, no future release
date, and pairwise-unique tmdb_id, any successful create or write leaves the
store satisfying the same; and a create or write violating any of the four
raises a validation failure (an `Except.error`) that aborts that write —
exactly when the written record breaks a local bound or duplicates an id. -/
theorem c4_movie_write_constraints (today : Int) (movies : List Movie)
    (m : Movie) (sel : Movie → Bool) (upd : Movie → Movie) :
    (moviesInv today movies → ∀ movies',
      create_movie_record today movies m = Except.ok movies' →
      moviesInv today movies') ∧
    ((∃ e, create_movie_record today movies m = Except.error e) ↔
      ¬ (movieLocalInv today m ∧
        search_count_tmdb_id (movies ++ [m]) m.tmdb_id ≤ 1)) ∧
    (moviesInv today movies → ∀ movies',
      write_movie_records today movies sel upd = Except.ok movies' →
      moviesInv today movies') ∧
    ((∃ e, write_movie_records today movies sel upd = Except.error e) ↔
      ¬ (∀ x ∈ movies, sel x = true →
        movieLocalInv today (upd x) ∧
        search_count_tmdb_id
          (movies.map (fun y => if sel y then upd y else y))
          (upd x).tmdb_id ≤ 1)) := by
  refine ⟨?_, ?_, ?_, ?_⟩
  · intro hInv movies' hok
    unfold create_movie_record at hok
    dsimp only at hok
    split at hok
    case isTrue hc =>
      obtain rfl : movies ++ [m] = movies' := Except.ok.inj hok
      rw [run_movie_constraints_iff] at hc
      constructor
      · intro x hx
        rcases List.mem_append.mp hx with hx | hx
        · exact hInv.1 x hx
        · rw [List.mem_singleton.mp hx]
          exact hc.1
      · intro t
        rw [search_count_append]
        by_cases ht : m.tmdb_id = t
        · have h2 := hc.2
          rw [search_count_append] at h2
          subst ht
          simp only [if_pos rfl] at h2 ⊢
          omega
        · rw [if_neg ht]
          have := hInv.2 t
          omega
    case isFalse hc => exact absurd hok (by simp)
  · constructor
    · rintro ⟨e, he⟩
      unfold create_movie_record at he
      dsimp only at he
      split at he
      case isTrue hc => exact absurd he (by simp)
      case isFalse hc =>
        rw [run_movie_constraints_iff] at hc
        exact hc
    · intro hviol
      refine ⟨"ValidationError", ?_⟩
      unfold create_movie_record
      dsimp only
      rw [if_neg
        (fun hc => hviol ((run_movie_constraints_iff today (movies ++ [m]) m).mp hc))]
  · intro hInv movies' hok
    unfold write_movie_records at hok
    dsimp only at hok
    split at hok
    case isFalse => exact absurd hok (by simp)
    case isTrue hall =>
      obtain rfl : movies.map (fun y => if sel y then upd y else y) = movies' :=
        Except.ok.inj hok
      have hall' : ∀ x ∈ movies, sel x = true →
          run_movie_constraints today
            (movies.map (fun y => if sel y then upd y else y)) (upd x) = true := by
        intro x hx hsx
        have hb := List.all_eq_true.mp hall x hx
        rw [hsx] at hb
        simpa using hb
      constructor
      · intro x hx
        rw [List.mem_map] at hx
        obtain ⟨y, hy, hxy⟩ := hx
        by_cases hsy : sel y = true
        · have hrc := hall' y hy hsy
          rw [run_movie_constraints_iff] at hrc
          rw [← hxy, if_pos hsy]
          exact hrc.1
        · rw [← hxy, if_neg hsy]
          exact hInv.1 y hy
      · intro t
        by_cases hcase : ∃ x ∈ movies, sel x = true ∧ (upd x).tmdb_id = t
        · obtain ⟨x, hx, hsx, hxt⟩ := hcase
          have hrc := hall' x hx hsx
          rw [run_movie_constraints_iff] at hrc
          have h2 := hrc.2
          rw [hxt] at h2
          exact h2
        · push_neg at hcase
          exact le_trans
            (search_count_update_le sel upd t movies
              (fun x hx hsx => hcase x hx hsx))
            (hInv.2 t)
  · constructor
    · rintro ⟨e, he⟩
      unfold write_movie_records at he
      dsimp only at he
      split at he
      case isTrue => exact absurd he (by simp)
      case isFalse hall =>
        intro hgood
        apply hall
        rw [List.all_eq_true]
        intro x hx
        by_cases hsx : sel x = true
        · rw [hsx]
          simpa using (run_movie_constraints_iff _ _ _).mpr (hgood x hx hsx)
        · rw [Bool.not_eq_true] at hsx
          rw [hsx]
          simp
    · intro hviol
      refine ⟨"ValidationError", ?_⟩
      unfold write_movie_records
      dsimp only
      rw [if_neg]
      intro hall
      apply hviol
      intro x hx hsx
      have hb := List.all_eq_true.mp hall x hx
      rw [hsx] at hb
      simp only [Bool.not_true, Bool.false_or] at hb
      exact (run_movie_constraints_iff _ _ _).mp hb

/-- A valid concrete movie record for the C4 witness. -/
def c4exMovie : Movie :=
  { id := 1, tmdb_id := 603, title := "The Matrix", original_title := none,
    overview := none, release_date := some 10675, popularity := 450,
    vote_average := 8, vote_count := 15000, poster_path := none,
    backdrop_path := none, director := none, director_id := none,
    genre_ids := [], actor_ids := [], active := true, last_sync := 0,
    create_date := 0 }

/-- Witness for C4: creating a valid movie in an empty store succeeds and
the resulting store satisfies all four invariants. -/
theorem c4_movie_write_constraints_witness :
    create_movie_record 20000 [] c4exMovie = Except.ok [c4exMovie] ∧
    moviesInv 20000 [c4exMovie] := by
  have hok : create_movie_record 20000 [] c4exMovie = Except.ok [c4exMovie] := by
    rfl
  have hinv0 : moviesInv 20000 [] :=
    ⟨by simp, fun t => by simp [search_count_tmdb_id]⟩
  exact ⟨hok,
    (c4_movie_write_constraints 20000 [] c4exMovie (fun _ => false) id).1
      hinv0 [c4exMovie] hok⟩

/-- One crew entry of a TMDB credits response. -/
structure CrewMember where
  name : Option String
  job : Option String
  profile_path : Option String
  deriving DecidableEq, Repr

/-- One cast entry of a TMDB credits response. -/
structure CastMember where
  name : Option String
  popularity : Option Rat
  profile_path : Option String
  deriving DecidableEq, Repr

/-- A TMDB `/movie/{id}/credits` response body. -/
structure CreditsData where
  cast : List CastMember
  crew : List CrewMember
  deriving DecidableEq, Repr

/-- A TMDB `/movie/{id}` response body; absent JSON keys are `none`, and an
empty release-date string is folded into `none` (both are falsy in the
source's `or False` handling). -/
structure MovieData where
  id : Int
  title : Option String
  original_title : Option String
  overview : Option String
  release_date : Option Int
  popularity : Option Rat
  vote_average : Option Rat
  vote_count : Option Int
  poster_path : Option String
  backdrop_path : Option String
  genres : List GenreData
  deriving DecidableEq, Repr

/-- The TMDB API and image CDN as oracles: `none` is the fetch-failed
sentinel produced by the caught `RequestException`. -/
structure Upstream where
  movieDetails : Int → Option MovieData
  credits : Int → Option CreditsData
  download : String → Option String

/-- Python `x or False` on an optional string: `None` and `""` give the
falsy field value `none`. -/
def strOrFalse : Option String → Option String
  | none => none
  | some s => if s = "" then none else some s

/-- Python `x or 0.0` on an optional float (0.0 is falsy but the default is
the same value, so this is plain defaulting). -/
def ratOrZero (o : Option Rat) : Rat :=
  o.getD 0

/-- Python `x or 0` on an optional integer. -/
def intOrZero (o : Option Int) : Int :=
  o.getD 0

/-- The upsert payload dict built by `TMDBMovie._prepare_movie_values`;
`actor_ids = none` models the dict key being absent. -/
structure MovieVals where
  tmdb_id : Int
  title : String
  original_title : Option String
  overview : Option String
  release_date : Option Int
  popularity : Rat
  vote_average : Rat
  vote_count : Int
  poster_path : Option String
  backdrop_path : Option String
  director : Option String
  director_id : Option Nat
  last_sync : Nat
  genre_ids : List Nat
  actor_ids : Option (List Nat)
  deriving DecidableEq, Repr

/-- Embeds `TMDBMovie._prepare_movie_values` (models/tmdb_movie.py lines
556-581): `or ""` on the title, `or False` on the optional strings,
`or 0.0`/`or 0` on the metrics, genre ids always set with a full-replace
`(6, 0, ids)` command, and the `actor_ids` key added only when the resolved
actor list is truthy (nonempty). -/
def prepare_movie_values (movie_data : MovieData) (director : Option String)
    (director_contact : Option Nat) (genre_ids : List Nat)
    (actor_ids : List Nat) (now : Nat) : MovieVals :=
  { tmdb_id := movie_data.id
    title := movie_data.title.getD ""
    original_title := strOrFalse movie_data.original_title
    overview := strOrFalse movie_data.overview
    release_date := movie_data.release_date
    popularity := ratOrZero movie_data.popularity
    vote_average := ratOrZero movie_data.vote_average
    vote_count := intOrZero movie_data.vote_count
    poster_path := strOrFalse movie_data.poster_path
    backdrop_path := strOrFalse movie_data.backdrop_path
    director := strOrFalse director
    director_id := director_contact
    last_sync := now
    genre_ids := genre_ids
    actor_ids := if actor_ids.isEmpty then none else some actor_ids }

/-- Writing the payload onto an existing record: every present key replaces
the field; genre ids are a full `(6, 0, ids)` replace; the actor ids are
replaced only when the key is present, else the association is untouched. -/
def apply_movie_vals (m : Movie) (v : MovieVals) : Movie :=
  { m with
    tmdb_id := v.tmdb_id
    title := v.title
    original_title := v.original_title
    overview := v.overview
    release_date := v.release_date
    popularity := v.popularity
    vote_average := v.vote_average
    vote_count := v.vote_count
    poster_path := v.poster_path
    backdrop_path := v.backdrop_path
    director := v.director
    director_id := v.director_id
    last_sync := v.last_sync
    genre_ids := v.genre_ids
    actor_ids := match v.actor_ids with
      | some a => a
      | none => m.actor_ids }

/-- Creating a record from the payload: an absent `actor_ids` key leaves the
new many2many empty; `active` defaults to true. -/
def movie_of_vals (rid now : Nat) (v : MovieVals) : Movie :=
  { id := rid
    tmdb_id := v.tmdb_id
    title := v.title
    original_title := v.original_title
    overview := v.overview
    release_date := v.release_date
    popularity := v.popularity
    vote_average := v.vote_average
    vote_count := v.vote_count
    poster_path := v.poster_path
    backdrop_path := v.backdrop_path
    director := v.director
    director_id := v.director_id
    genre_ids := v.genre_ids
    actor_ids := v.actor_ids.getD []
    active := true
    last_sync := v.last_sync
    create_date := now }

/-- Embeds `TMDBMovie.get_director_from_credits` (lines 277-286): the first
crew entry whose job equals "Director", else (None, None). -/
def get_director_from_credits (credits_data : Option CreditsData) :
    Option String × Option String :=
  match credits_data with
  | none => (none, none)
  | some cd =>
    match cd.crew.find? (fun c => c.job == some "Director") with
    | some c => (c.name, c.profile_path)
    | none => (none, none)

/-- Embeds `TMDBMovie._process_director_info` (lines 524-537): fetch
credits; extract the director; resolve the contact only for a truthy name. -/
def process_director_info (up : Upstream) (s : St) (tid : Int) :
    (Option String × Option Nat) × St :=
  match up.credits tid with
  | none => ((none, none), s)
  | some cd =>
    let d := get_director_from_credits (some cd)
    if truthyStr d.1 then
      let r := find_or_create_director_contact_simple up.download s d.1 d.2
      ((d.1, r.1), r.2)
    else ((d.1, none), s)

/-- One step of the `_process_actors_info` loop over the top-5 cast. -/
def actor_step (download : String → Option String)
    (acc : List Nat × St) (c : CastMember) : List Nat × St :=
  if truthyStr c.name then
    let r := find_or_create_actor_contact download acc.2 c.name c.profile_path
    match r.1 with
    | some pid => (acc.1 ++ [pid], r.2)
    | none => (acc.1, r.2)
  else acc

/-- Embeds `TMDBMovie._process_actors_info` (lines 165-194): fetch credits
(empty list on failure), stable-sort the cast by popularity descending, take
the top 5, and resolve each truthy name to an actor contact. -/
def process_actors_info (up : Upstream) (s : St) (tid : Int) :
    List Nat × St :=
  match up.credits tid with
  | none => ([], s)
  | some cd =>
    let sorted := (cd.cast.mergeSort
      (fun a b => decide (b.popularity.getD 0 ≤ a.popularity.getD 0))).take 5
    sorted.foldl (actor_step up.download) ([], s)

/-- One step of the `_process_genres` loop. -/
def genre_step (acc : List Nat × St) (g : GenreData) : List Nat × St :=
  match acc.2.genres.find? (fun r => r.tmdb_genre_id == g.id) with
  | some grec => (acc.1 ++ [grec.id], acc.2)
  | none =>
    let r := create_genre acc.2 g.id g.name
    (acc.1 ++ [r.1], r.2)

/-- Embeds `TMDBMovie._process_genres` (lines 539-554): resolve each genre
reference to the local record, creating a minimal `{tmdb_genre_id, name}`
genre on the fly when missing. -/
def process_genres (s : St) (genres_data : List GenreData) : List Nat × St :=
  genres_data.foldl genre_step ([], s)

/-- Embeds `TMDBMovie.sync_movie_from_tmdb` (lines 138-163): fetch details
(returning False — `ok none` — and touching nothing on failure), search the
existing record by external id, process director, actors and genres, build
the payload, then write the existing record in place (returning it) or
create a new one (returning it). A `ValidationError` from the final
create/write aborts only that write: the genre and partner side effects
remain (spec §9's accepted inconsistency). -/
def sync_movie_from_tmdb (up : Upstream) (s : St) (tid : Int)
    (today : Int) (now : Nat) : Except String (Option Nat) × St :=
  match up.movieDetails tid with
  | none => (Except.ok none, s)
  | some movie_data =>
    let existing := s.movies.filter (fun m => m.tmdb_id == tid)
    let dres := process_director_info up s tid
    let ares := process_actors_info up dres.2 tid
    let gres := process_genres ares.2 movie_data.genres
    let movie_vals := prepare_movie_values movie_data dres.1.1 dres.1.2
      gres.1 ares.1 now
    match existing with
    | [] =>
      let newRec := movie_of_vals gres.2.nextId now movie_vals
      match create_movie_record today gres.2.movies newRec with
      | Except.ok movies' =>
        (Except.ok (some newRec.id),
          { gres.2 with movies := movies', nextId := gres.2.nextId + 1 })
      | Except.error e => (Except.error e, gres.2)
    | mfirst :: _ =>
      match write_movie_records today gres.2.movies
          (fun m => m.tmdb_id == tid)
          (fun m => apply_movie_vals m movie_vals) with
      | Except.ok movies' =>
        (Except.ok (some mfirst.id), { gres.2 with movies := movies' })
      | Except.error e => (Except.error e, gres.2)

/-- C3: when the movie-details fetch fails (network error, timeout or
non-2xx all collapse to the `None` sentinel of `fetch_movie_from_tmdb`),
`sync_movie_from_tmdb` returns False (`ok none`) and performs no local
mutation at all: the movie, genre and partner tables are exactly as
before. -/
theorem c3_sync_fetch_failure (up : Upstream) (s : St) (tid today : Int)
    (now : Nat) (hfail : up.movieDetails tid = none) :
    sync_movie_from_tmdb up s tid today now = (Except.ok none, s) ∧
    (sync_movie_from_tmdb up s tid today now).2.movies = s.movies ∧
    (sync_movie_from_tmdb up s tid today now).2.genres = s.genres ∧
    (sync_movie_from_tmdb up s tid today now).2.partners = s.partners := by
  unfold sync_movie_from_tmdb
  rw [hfail]
  exact ⟨rfl, rfl, rfl, rfl⟩

/-- An upstream oracle whose every fetch fails. -/
def c3exUpstream : Upstream :=
  { movieDetails := fun _ => none, credits := fun _ => none,
    download := fun _ => none }

/-- Witness for C3 at a concrete store and id: the failed fetch returns
False and leaves the store untouched. -/
theorem c3_sync_fetch_failure_witness :
    sync_movie_from_tmdb c3exUpstream c6exStore 603 20000 5 =
      (Except.ok none, c6exStore) :=
  (c3_sync_fetch_failure c3exUpstream c6exStore 603 20000 5 rfl).1

/-- C2 amended: the payload always carries the resolved genre id set as a
full replace (also when empty), while the `actor_ids` key is present only
when the resolved actor set is nonempty — writing a payload with an empty
resolved actor set leaves the prior actor association unchanged; the title
defaults to "" and popularity/vote_average/vote_count default to 0/0.0/0
when absent from the API response. -/
theorem c2_amended_prepare_movie_values (md : MovieData)
    (director : Option String) (dc : Option Nat) (gids aids : List Nat)
    (now : Nat) (m : Movie) :
    (prepare_movie_values md director dc gids aids now).genre_ids = gids ∧
    (apply_movie_vals m
      (prepare_movie_values md director dc gids aids now)).genre_ids = gids ∧
    (aids ≠ [] →
      (apply_movie_vals m
        (prepare_movie_values md director dc gids aids now)).actor_ids = aids) ∧
    (aids = [] →
      (apply_movie_vals m
        (prepare_movie_values md director dc gids aids now)).actor_ids =
        m.actor_ids) ∧
    (md.title = none →
      (prepare_movie_values md director dc gids aids now).title = "") ∧
    (md.popularity = none →
      (prepare_movie_values md director dc gids aids now).popularity = 0) ∧
    (md.vote_average = none →
      (prepare_movie_values md director dc gids aids now).vote_average = 0) ∧
    (md.vote_count = none →
      (prepare_movie_values md director dc gids aids now).vote_count = 0) := by
  refine ⟨rfl, rfl, ?_, ?_, ?_, ?_, ?_, ?_⟩
  · intro h
    have : aids.isEmpty = false := by
      cases aids with
      | nil => exact absurd rfl h
      | cons a l => rfl
    simp [apply_movie_vals, prepare_movie_values, this]
  · intro h
    subst h
    simp [apply_movie_vals, prepare_movie_values]
  · intro h
    simp [prepare_movie_values, h]
  · intro h
    simp [prepare_movie_values, ratOrZero, h]
  · intro h
    simp [prepare_movie_values, ratOrZero, h]
  · intro h
    simp [prepare_movie_values, intOrZero, h]

/-- Witness for C2 amended: applying a payload with resolved genre set `[4]`
and an empty resolved actor set to a movie that currently has actor `[7]`
replaces the genres and keeps the actors. -/
theorem c2_amended_prepare_movie_values_witness :
    (apply_movie_vals c4exMovie
      (prepare_movie_values
        { id := 603, title := none, original_title := none, overview := none,
          release_date := none, popularity := none, vote_average := none,
          vote_count := none, poster_path := none, backdrop_path := none,
          genres := [] }
        none none [4] [] 9)).genre_ids = [4] ∧
    (apply_movie_vals c4exMovie
      (prepare_movie_values
        { id := 603, title := none, original_title := none, overview := none,
          release_date := none, popularity := none, vote_average := none,
          vote_count := none, poster_path := none, backdrop_path := none,
          genres := [] }
        none none [4] [] 9)).actor_ids = c4exMovie.actor_ids :=
  let h := c2_amended_prepare_movie_values
    { id := 603, title := none, original_title := none, overview := none,
      release_date := none, popularity := none, vote_average := none,
      vote_count := none, poster_path := none, backdrop_path := none,
      genres := [] }
    none none [4] [] 9 c4exMovie
  ⟨h.2.1, h.2.2.2.1 rfl⟩

/-- An existing local movie with one genre and one actor association. -/
def c2exMovie : Movie :=
  { id := 9, tmdb_id := 603, title := "The Matrix", original_title := none,
    overview := none, release_date := none, popularity := 0,
    vote_average := 0, vote_count := 0, poster_path := none,
    backdrop_path := none, director := none, director_id := none,
    genre_ids := [5], actor_ids := [7], active := true, last_sync := 0,
    create_date := 0 }

/-- Upstream details for the same movie: no credits and no genres, so the
resolved genre and actor id sets are both empty. -/
def c2exMovieData : MovieData :=
  { id := 603
    title := some "The Matrix"
    original_title := none
    overview := none
    release_date := none
    popularity := none
    vote_average := none
    vote_count := none
    poster_path := none
    backdrop_path := none
    genres := [] }

/-- The upstream oracle serving only the C2 movie's details. -/
def c2exUpstream : Upstream :=
  { movieDetails := fun i => if i == 603 then some c2exMovieData else none
    credits := fun _ => none
    download := fun _ => none }

/-- The store holding the existing movie. -/
def c2exStore : St :=
  { movies := [c2exMovie], genres := [], partners := [], nextId := 10 }

/-- C2 counterexample: syncing an existing movie whose resolved actor set is
empty does NOT replace the prior actor association — the movie keeps actor
`[7]` — while the genre association IS fully replaced by the empty set. The
claim's "full replace ... including when a resolved set is empty" fails for
actors. -/
theorem c2_counterexample_empty_actor_set :
    (sync_movie_from_tmdb c2exUpstream c2exStore 603 20000 5).2.movies.map
      Movie.actor_ids = [[7]] ∧
    (sync_movie_from_tmdb c2exUpstream c2exStore 603 20000 5).2.movies.map
      Movie.genre_ids = [[]] ∧
    ([7] : List Nat) ≠ [] := by
  decide

/-- Director processing touches only the partner table. -/
theorem process_director_info_movies (up : Upstream) (s : St) (tid : Int) :
    (process_director_info up s tid).2.movies = s.movies ∧
    (process_director_info up s tid).2.genres = s.genres := by
  unfold process_director_info
  cases hc : up.credits tid with
  | none => exact ⟨rfl, rfl⟩
  | some cd =>
    dsimp only
    by_cases hd : truthyStr (get_director_from_credits (some cd)).1 = true
    · rw [if_pos hd]
      obtain ⟨u, ext, pid, _, _, _, hmov, hgen, _⟩ :=
        director_call_shape up.download s (get_director_from_credits (some cd)).1
          (get_director_from_credits (some cd)).2 hd
      exact ⟨hmov, hgen⟩
    · rw [if_neg hd]
      exact ⟨rfl, rfl⟩

/-- One actor-resolution step touches only the partner table. -/
theorem actor_step_movies (dl : String → Option String) (acc : List Nat × St)
    (c : CastMember) :
    (actor_step dl acc c).2.movies = acc.2.movies ∧
    (actor_step dl acc c).2.genres = acc.2.genres := by
  unfold actor_step
  by_cases hn : truthyStr c.name = true
  · rw [if_pos hn]
    obtain ⟨u, ext, pid, _, hr, _, hmov, hgen, _⟩ :=
      actor_call_shape dl acc.2 c.name c.profile_path hn
    dsimp only
    rw [hr]
    exact ⟨hmov, hgen⟩
  · rw [if_neg hn]
    exact ⟨rfl, rfl⟩

/-- The actor fold touches only the partner table. -/
theorem foldl_actor_step_movies (dl : String → Option String) :
    ∀ (l : List CastMember) (acc : List Nat × St),
      ((l.foldl (actor_step dl) acc).2.movies = acc.2.movies ∧
        (l.foldl (actor_step dl) acc).2.genres = acc.2.genres) := by
  intro l
  induction l with
  | nil => intro acc; exact ⟨rfl, rfl⟩
  | cons c rest ih =>
    intro acc
    have h1 := actor_step_movies dl acc c
    have h2 := ih (actor_step dl acc c)
    exact ⟨h2.1.trans h1.1, h2.2.trans h1.2⟩

/-- Actor processing touches only the partner table. -/
theorem process_actors_info_movies (up : Upstream) (s : St) (tid : Int) :
    (process_actors_info up s tid).2.movies = s.movies ∧
    (process_actors_info up s tid).2.genres = s.genres := by
  unfold process_actors_info
  cases hc : up.credits tid with
  | none => exact ⟨rfl, rfl⟩
  | some cd =>
    exact foldl_actor_step_movies up.download _ ([], s)

/-- One genre-resolution step touches only the genre table. -/
theorem genre_step_movies (acc : List Nat × St) (g : GenreData) :
    (genre_step acc g).2.movies = acc.2.movies ∧
    (genre_step acc g).2.partners = acc.2.partners := by
  unfold genre_step
  cases hf : acc.2.genres.find? (fun r => r.tmdb_genre_id == g.id) with
  | some grec => exact ⟨rfl, rfl⟩
  | none => exact ⟨rfl, rfl⟩

/-- The genre fold touches only the genre table, from any accumulator. -/
theorem foldl_genre_step_movies :
    ∀ (l : List GenreData) (acc : List Nat × St),
      (l.foldl genre_step acc).2.movies = acc.2.movies ∧
      (l.foldl genre_step acc).2.partners = acc.2.partners := by
  intro l
  induction l with
  | nil => intro acc; exact ⟨rfl, rfl⟩
  | cons g rest ih =>
    intro acc
    have h1 := genre_step_movies acc g
    have h2 := ih (genre_step acc g)
    exact ⟨h2.1.trans h1.1, h2.2.trans h1.2⟩

/-- Genre processing touches only the genre table. -/
theorem process_genres_movies (s : St) (gd : List GenreData) :
    (process_genres s gd).2.movies = s.movies ∧
    (process_genres s gd).2.partners = s.partners :=
  foldl_genre_step_movies gd ([], s)

/-- The store state after the director/actor/genre processing chain of one
`sync_movie_from_tmdb` call. -/
def sync_gstate (up : Upstream) (s : St) (tid : Int) (gd : List GenreData) : St :=
  (process_genres (process_actors_info up
    (process_director_info up s tid).2 tid).2 gd).2

/-- The payload one `sync_movie_from_tmdb` call builds. -/
def sync_vals (up : Upstream) (s : St) (tid : Int) (md : MovieData)
    (now : Nat) : MovieVals :=
  prepare_movie_values md (process_director_info up s tid).1.1
    (process_director_info up s tid).1.2
    (process_genres (process_actors_info up
      (process_director_info up s tid).2 tid).2 md.genres).1
    (process_actors_info up (process_director_info up s tid).2 tid).1 now

/-- The fresh record one `sync_movie_from_tmdb` call would create. -/
def sync_new_record (up : Upstream) (s : St) (tid : Int) (md : MovieData)
    (now : Nat) : Movie :=
  movie_of_vals (sync_gstate up s tid md.genres).nextId now
    (sync_vals up s tid md now)

/-- The whole processing chain never touches the movie table. -/
theorem sync_gstate_movies (up : Upstream) (s : St) (tid : Int)
    (gd : List GenreData) : (sync_gstate up s tid gd).movies = s.movies := by
  unfold sync_gstate
  rw [(process_genres_movies _ _).1, (process_actors_info_movies _ _ _).1,
    (process_director_info_movies _ _ _).1]

/-- Evaluation of `sync_movie_from_tmdb` on a successful fetch with no
existing record: it reduces to the create branch. -/
theorem sync_eq_create (up : Upstream) (s : St) (tid today : Int) (now : Nat)
    (md : MovieData) (hfetch : up.movieDetails tid = some md)
    (hnone : s.movies.filter (fun m => m.tmdb_id == tid) = []) :
    sync_movie_from_tmdb up s tid today now =
      (match create_movie_record today (sync_gstate up s tid md.genres).movies
          (sync_new_record up s tid md now) with
      | Except.ok movies' =>
        (Except.ok (some (sync_new_record up s tid md now).id),
          { sync_gstate up s tid md.genres with
            movies := movies'
            nextId := (sync_gstate up s tid md.genres).nextId + 1 })
      | Except.error e => (Except.error e, sync_gstate up s tid md.genres)) := by
  unfold sync_movie_from_tmdb sync_new_record sync_gstate sync_vals
  rw [hfetch]
  dsimp only
  rw [hnone]

/-- Evaluation of `sync_movie_from_tmdb` on a successful fetch with an
existing record: it reduces to the write branch and returns the first
matching record. -/
theorem sync_eq_write (up : Upstream) (s : St) (tid today : Int) (now : Nat)
    (md : MovieData) (mfirst : Movie) (mrest : List Movie)
    (hfetch : up.movieDetails tid = some md)
    (hsome : s.movies.filter (fun m => m.tmdb_id == tid) = mfirst :: mrest) :
    sync_movie_from_tmdb up s tid today now =
      (match write_movie_records today
          (sync_gstate up s tid md.genres).movies
          (fun m => m.tmdb_id == tid)
          (fun m => apply_movie_vals m (sync_vals up s tid md now)) with
      | Except.ok movies' =>
        (Except.ok (some mfirst.id),
          { sync_gstate up s tid md.genres with movies := movies' })
      | Except.error e => (Except.error e, sync_gstate up s tid md.genres)) := by
  unfold sync_movie_from_tmdb sync_gstate sync_vals
  rw [hfetch]
  dsimp only
  rw [hsome]

/-- An update restricted to unselected records is the identity. -/
theorem map_if_not_sel (sel : Movie → Bool) (upd : Movie → Movie) :
    ∀ l : List Movie, (∀ x ∈ l, sel x = false) →
      l.map (fun m => if sel m then upd m else m) = l := by
  intro l
  induction l with
  | nil => intro _; rfl
  | cons m rest ih =>
    intro h
    have hm : sel m = false := h m (List.mem_cons_self _ _)
    simp only [List.map_cons, hm, Bool.false_eq_true, if_false]
    rw [ih fun x hx => h x (List.mem_cons_of_mem _ hx)]

/-- C1: for an external id with no local record, syncing twice with the same
upstream data (which passes the write-time validators) yields exactly one
local movie with that id: the first call creates it and returns it, the
second call finds it, updates it in place (same record ids, same table
length) and returns the same record rather than creating a duplicate. -/
theorem c1_sync_movie_idempotent (up : Upstream) (s : St) (tid today : Int)
    (now1 now2 : Nat) (md : MovieData)
    (hfetch : up.movieDetails tid = some md)
    (hid : md.id = tid)
    (hnone : s.movies.filter (fun m => m.tmdb_id == tid) = [])
    (hva0 : 0 ≤ ratOrZero md.vote_average)
    (hva10 : ratOrZero md.vote_average ≤ 10)
    (hvc : 0 ≤ intOrZero md.vote_count)
    (hrd : ∀ d, md.release_date = some d → d ≤ today) :
    ∃ n : Nat,
      (sync_movie_from_tmdb up s tid today now1).1 = Except.ok (some n) ∧
      (sync_movie_from_tmdb up (sync_movie_from_tmdb up s tid today now1).2
        tid today now2).1 = Except.ok (some n) ∧
      ((sync_movie_from_tmdb up s tid today now1).2.movies.filter
        (fun m => m.tmdb_id == tid)).length = 1 ∧
      ((sync_movie_from_tmdb up (sync_movie_from_tmdb up s tid today now1).2
        tid today now2).2.movies.filter
        (fun m => m.tmdb_id == tid)).length = 1 ∧
      (sync_movie_from_tmdb up s tid today now1).2.movies.length =
        s.movies.length + 1 ∧
      (sync_movie_from_tmdb up (sync_movie_from_tmdb up s tid today now1).2
        tid today now2).2.movies.length =
        (sync_movie_from_tmdb up s tid today now1).2.movies.length ∧
      (sync_movie_from_tmdb up (sync_movie_from_tmdb up s tid today now1).2
        tid today now2).2.movies.map Movie.id =
        (sync_movie_from_tmdb up s tid today now1).2.movies.map Movie.id := by
  have h0 : search_count_tmdb_id s.movies tid = 0 := by
    unfold search_count_tmdb_id
    rw [hnone]
    rfl
  have hNt : (sync_new_record up s tid md now1).tmdb_id = tid := hid
  have hbeq : ((sync_new_record up s tid md now1).tmdb_id == tid) = true := by
    rw [hNt]
    exact beq_self_eq_true tid
  have hc1 : run_movie_constraints today
      ((sync_gstate up s tid md.genres).movies ++
        [sync_new_record up s tid md now1])
      (sync_new_record up s tid md now1) = true := by
    rw [run_movie_constraints_iff]
    refine ⟨⟨hva0, hva10, hvc, fun d hd => hrd d hd⟩, ?_⟩
    rw [search_count_append, sync_gstate_movies, if_pos rfl, hNt, h0]
  have hcreate1 : create_movie_record today
      (sync_gstate up s tid md.genres).movies
      (sync_new_record up s tid md now1) =
      Except.ok ((sync_gstate up s tid md.genres).movies ++
        [sync_new_record up s tid md now1]) := by
    unfold create_movie_record
    dsimp only
    rw [if_pos hc1]
  have e1 : sync_movie_from_tmdb up s tid today now1 =
      (Except.ok (some (sync_new_record up s tid md now1).id),
        { sync_gstate up s tid md.genres with
          movies := (sync_gstate up s tid md.genres).movies ++
            [sync_new_record up s tid md now1]
          nextId := (sync_gstate up s tid md.genres).nextId + 1 }) := by
    rw [sync_eq_create up s tid today now1 md hfetch hnone, hcreate1]
  have hs1 : (sync_movie_from_tmdb up s tid today now1).2.movies =
      s.movies ++ [sync_new_record up s tid md now1] := by
    rw [e1]
    dsimp only
    rw [sync_gstate_movies]
  have hfilter1 : (sync_movie_from_tmdb up s tid today now1).2.movies.filter
      (fun m => m.tmdb_id == tid) = [sync_new_record up s tid md now1] := by
    rw [hs1, List.filter_append, hnone, List.nil_append]
    simp [List.filter_cons, hbeq]
  have hselS : ∀ x ∈ s.movies, (x.tmdb_id == tid) = false := by
    intro x hx
    have := List.filter_eq_nil_iff.mp hnone x hx
    simpa using this
  have hG2mov : (sync_gstate up
      (sync_movie_from_tmdb up s tid today now1).2 tid md.genres).movies =
      s.movies ++ [sync_new_record up s tid md now1] := by
    rw [sync_gstate_movies, hs1]
  have happN : (apply_movie_vals (sync_new_record up s tid md now1)
      (sync_vals up (sync_movie_from_tmdb up s tid today now1).2 tid md
        now2)).tmdb_id = tid := hid
  have happNid : (apply_movie_vals (sync_new_record up s tid md now1)
      (sync_vals up (sync_movie_from_tmdb up s tid today now1).2 tid md
        now2)).id = (sync_new_record up s tid md now1).id := rfl
  have hM2 : (sync_gstate up (sync_movie_from_tmdb up s tid today now1).2
        tid md.genres).movies.map
      (fun m => if m.tmdb_id == tid then
        apply_movie_vals m (sync_vals up
          (sync_movie_from_tmdb up s tid today now1).2 tid md now2)
        else m) =
      s.movies ++ [apply_movie_vals (sync_new_record up s tid md now1)
        (sync_vals up (sync_movie_from_tmdb up s tid today now1).2 tid md
          now2)] := by
    rw [hG2mov, List.map_append,
      map_if_not_sel (fun m => m.tmdb_id == tid) _ s.movies hselS,
      List.map_cons, List.map_nil, if_pos hbeq]
  have hc2 : run_movie_constraints today
      ((sync_gstate up (sync_movie_from_tmdb up s tid today now1).2
        tid md.genres).movies.map
        (fun m => if m.tmdb_id == tid then
          apply_movie_vals m (sync_vals up
            (sync_movie_from_tmdb up s tid today now1).2 tid md now2)
          else m))
      (apply_movie_vals (sync_new_record up s tid md now1)
        (sync_vals up (sync_movie_from_tmdb up s tid today now1).2 tid md
          now2)) = true := by
    rw [run_movie_constraints_iff]
    refine ⟨⟨hva0, hva10, hvc, fun d hd => hrd d hd⟩, ?_⟩
    rw [hM2, search_count_append, happN, h0, if_pos rfl]
  have hall2 : ((sync_gstate up (sync_movie_from_tmdb up s tid today now1).2
      tid md.genres).movies.all
      (fun m => !(m.tmdb_id == tid) ||
        run_movie_constraints today
          ((sync_gstate up (sync_movie_from_tmdb up s tid today now1).2
            tid md.genres).movies.map
            (fun m => if m.tmdb_id == tid then
              apply_movie_vals m (sync_vals up
                (sync_movie_from_tmdb up s tid today now1).2 tid md now2)
              else m))
          (apply_movie_vals m (sync_vals up
            (sync_movie_from_tmdb up s tid today now1).2 tid md now2)))) =
      true := by
    rw [List.all_eq_true]
    intro x hx
    rw [hG2mov] at hx
    rcases List.mem_append.mp hx with hx | hx
    · rw [hselS x hx]
      rfl
    · rw [List.mem_singleton.mp hx, hbeq]
      simpa using hc2
  have hwrite : write_movie_records today
      (sync_gstate up (sync_movie_from_tmdb up s tid today now1).2
        tid md.genres).movies
      (fun m => m.tmdb_id == tid)
      (fun m => apply_movie_vals m (sync_vals up
        (sync_movie_from_tmdb up s tid today now1).2 tid md now2)) =
      Except.ok ((sync_gstate up
        (sync_movie_from_tmdb up s tid today now1).2 tid md.genres).movies.map
        (fun m => if m.tmdb_id == tid then
          apply_movie_vals m (sync_vals up
            (sync_movie_from_tmdb up s tid today now1).2 tid md now2)
          else m)) := by
    unfold write_movie_records
    dsimp only
    rw [if_pos hall2]
  have e2 : sync_movie_from_tmdb up
      (sync_movie_from_tmdb up s tid today now1).2 tid today now2 =
      (Except.ok (some (sync_new_record up s tid md now1).id),
        { sync_gstate up (sync_movie_from_tmdb up s tid today now1).2
            tid md.genres with
          movies := (sync_gstate up
            (sync_movie_from_tmdb up s tid today now1).2 tid md.genres).movies.map
            (fun m => if m.tmdb_id == tid then
              apply_movie_vals m (sync_vals up
                (sync_movie_from_tmdb up s tid today now1).2 tid md now2)
              else m) }) := by
    rw [sync_eq_write up (sync_movie_from_tmdb up s tid today now1).2 tid
      today now2 md (sync_new_record up s tid md now1) [] hfetch hfilter1,
      hwrite]
  have hs2 : (sync_movie_from_tmdb up
      (sync_movie_from_tmdb up s tid today now1).2 tid today now2).2.movies =
      s.movies ++ [apply_movie_vals (sync_new_record up s tid md now1)
        (sync_vals up (sync_movie_from_tmdb up s tid today now1).2 tid md
          now2)] := by
    rw [e2]
    dsimp only
    rw [hM2]
  have happbeq : ((apply_movie_vals (sync_new_record up s tid md now1)
      (sync_vals up (sync_movie_from_tmdb up s tid today now1).2 tid md
        now2)).tmdb_id == tid) = true := by
    rw [happN]
    exact beq_self_eq_true tid
  refine ⟨(sync_new_record up s tid md now1).id, ?_, ?_, ?_, ?_, ?_, ?_, ?_⟩
  · rw [e1]
  · rw [e2]
  · rw [hfilter1]
    rfl
  · rw [hs2, List.filter_append, hnone, List.nil_append]
    simp [List.filter_cons, happbeq]
  · rw [hs1, List.length_append]
    rfl
  · rw [hs2, hs1, List.length_append, List.length_append]
    rfl
  · rw [hs2, hs1, List.map_append, List.map_append]
    simp [happNid]

/-- An empty store for the C1 witness scenario. -/
def c1exStore : St :=
  { movies := [], genres := [], partners := [], nextId := 1 }

/-- Witness for C1 at concrete inputs: syncing movie 603 twice into an empty
store creates exactly one record, and the second call updates it in place
and returns it. -/
theorem c1_sync_movie_idempotent_witness :
    ∃ n : Nat,
      (sync_movie_from_tmdb c2exUpstream c1exStore 603 20000 5).1 =
        Except.ok (some n) ∧
      (sync_movie_from_tmdb c2exUpstream
        (sync_movie_from_tmdb c2exUpstream c1exStore 603 20000 5).2
        603 20000 6).1 = Except.ok (some n) ∧
      ((sync_movie_from_tmdb c2exUpstream c1exStore 603 20000 5).2.movies.filter
        (fun m => m.tmdb_id == 603)).length = 1 ∧
      ((sync_movie_from_tmdb c2exUpstream
        (sync_movie_from_tmdb c2exUpstream c1exStore 603 20000 5).2
        603 20000 6).2.movies.filter
        (fun m => m.tmdb_id == 603)).length = 1 ∧
      (sync_movie_from_tmdb c2exUpstream c1exStore 603 20000 5).2.movies.length =
        c1exStore.movies.length + 1 ∧
      (sync_movie_from_tmdb c2exUpstream
        (sync_movie_from_tmdb c2exUpstream c1exStore 603 20000 5).2
        603 20000 6).2.movies.length =
        (sync_movie_from_tmdb c2exUpstream c1exStore 603 20000 5).2.movies.length ∧
      (sync_movie_from_tmdb c2exUpstream
        (sync_movie_from_tmdb c2exUpstream c1exStore 603 20000 5).2
        603 20000 6).2.movies.map Movie.id =
        (sync_movie_from_tmdb c2exUpstream c1exStore 603 20000 5).2.movies.map
          Movie.id :=
  c1_sync_movie_idempotent c2exUpstream c1exStore 603 20000 5 6 c2exMovieData
    (by decide) (by decide) (by decide) (by decide) (by decide) (by decide)
    (by simp [c2exMovieData])

/-- The keep-policy selection values of the cleanup wizard. -/
inductive KeepPref where
  | newest
  | most_complete
  | highest_rating
  | manual
  deriving DecidableEq, Repr

/-- Python `max(group, key=key)`: the first maximal element (a later element
replaces the current best only when strictly greater). -/
def pyMaxBy {α : Type} [LinearOrder α] (key : Movie → α) :
    List Movie → Option Movie
  | [] => none
  | m :: rest =>
    some (rest.foldl (fun best x => if key best < key x then x else best) m)

/-- Embeds the `completeness_score` closure of
`TMDBDataCleanupWizard._get_most_complete_record` (lines 383-402). -/
def completeness_score (m : Movie) : Nat :=
  (if m.overview ≠ none then 1 else 0) +
  (if m.director ≠ none then 1 else 0) +
  (if m.poster_path ≠ none then 1 else 0) +
  (if m.backdrop_path ≠ none then 1 else 0) +
  (if m.genre_ids ≠ [] then m.genre_ids.length else 0) +
  (if m.vote_count ≠ 0 then 1 else 0)

/-- Embeds `TMDBDataCleanupWizard._is_recommended_keep` (lines 372-381);
`movie == max(...)` compares records, modelled by record id. Under the
"manual" preference no record is ever auto-recommended. -/
def is_recommended_keep (pref : KeepPref) (m : Movie) (group : List Movie) :
    Bool :=
  match pref with
  | KeepPref.newest =>
    decide ((pyMaxBy (fun x => x.create_date) group).map Movie.id = some m.id)
  | KeepPref.most_complete =>
    decide ((pyMaxBy completeness_score group).map Movie.id = some m.id)
  | KeepPref.highest_rating =>
    decide ((pyMaxBy (fun x => x.vote_average) group).map Movie.id = some m.id)
  | KeepPref.manual => false

/-- A `tmdb.data.cleanup.wizard.line` record (the fields the processing
reads). -/
structure WLine where
  movie_id : Nat
  group_number : Nat
  is_recommended_keep : Bool
  deriving DecidableEq, Repr

/-- The `update_vals` dict accumulated by `_merge_movie_data`; `none` models
an absent key (for `director_id` the present value may itself be `False`,
hence the nested option). -/
structure UpdateVals where
  overview : Option String
  director : Option String
  director_id : Option (Option Nat)
  poster_path : Option String
  backdrop_path : Option String
  votes : Option (Int × Rat)
  deriving DecidableEq, Repr

/-- The empty `update_vals` dict. -/
def emptyUpdateVals : UpdateVals :=
  { overview := none, director := none, director_id := none,
    poster_path := none, backdrop_path := none, votes := none }

/-- One iteration of the `_merge_movie_data` source loop (lines 560-586).
Each dict key is written at most once per iteration under an independent
condition against the (unchanging) target, so the chained Python
assignments are laid out field-by-field. -/
def mstep (target : Movie) (acc : UpdateVals × Finset Nat) (src : Movie) :
    UpdateVals × Finset Nat :=
  ({ overview :=
      if target.overview = none ∧ src.overview ≠ none then src.overview
      else acc.1.overview
     director :=
      if target.director = none ∧ src.director ≠ none then src.director
      else acc.1.director
     director_id :=
      if target.director = none ∧ src.director ≠ none then
        some src.director_id
      else acc.1.director_id
     poster_path :=
      if target.poster_path = none ∧ src.poster_path ≠ none then
        src.poster_path
      else acc.1.poster_path
     backdrop_path :=
      if target.backdrop_path = none ∧ src.backdrop_path ≠ none then
        src.backdrop_path
      else acc.1.backdrop_path
     votes :=
      if src.vote_count ≠ 0 ∧ target.vote_count < src.vote_count then
        some (src.vote_count, src.vote_average)
      else acc.1.votes },
   if src.genre_ids.isEmpty then acc.2 else acc.2 ∪ src.genre_ids.toFinset)

/-- Applying the accumulated `update_vals` dict (plus the optional
`genre_ids` full-replace) with `target.write` (lines 588-594): present keys
replace fields, absent keys leave them. -/
def apply_update_vals (target : Movie) (uv : UpdateVals)
    (genres : Option (List Nat)) : Movie :=
  { target with
    overview := match uv.overview with
      | some v => some v
      | none => target.overview
    director := match uv.director with
      | some v => some v
      | none => target.director
    director_id := match uv.director_id with
      | some v => v
      | none => target.director_id
    poster_path := match uv.poster_path with
      | some v => some v
      | none => target.poster_path
    backdrop_path := match uv.backdrop_path with
      | some v => some v
      | none => target.backdrop_path
    vote_count := match uv.votes with
      | some p => p.1
      | none => target.vote_count
    vote_average := match uv.votes with
      | some p => p.2
      | none => target.vote_average
    genre_ids := match genres with
      | some g => g
      | none => target.genre_ids }

/-- Embeds `TMDBDataCleanupWizard._merge_movie_data` (lines 551-594): no-op
without sources, else fold the source loop from the empty dict and the
target's genre id set, then write the dict, adding the genre full-replace
only when the union differs from the target's current set. -/
def merge_movie_data (target : Movie) (sources : List Movie) : Movie :=
  if sources.isEmpty then target
  else
    let r := sources.foldl (mstep target) (emptyUpdateVals,
      target.genre_ids.toFinset)
    apply_update_vals target r.1
      (if r.2 ≠ target.genre_ids.toFinset then some (r.2.sort (· ≤ ·))
       else none)

/-- The per-group merge action of `_merge_duplicates` (lines 453-463): merge
the discarded members' data into the kept record, then unlink each
discarded member. -/
def merge_group (store : List Movie) (target : Movie) (others : List Movie) :
    List Movie :=
  let merged := merge_movie_data target others
  (store.map (fun m => if m.id == target.id then merged else m)).filter
    (fun m => !(others.map Movie.id).contains m.id)

/-- The keep-line selection of `_merge_duplicates` (lines 438-450): under
"manual" with no flagged line the group is skipped (`none`); otherwise the
first flagged line, falling back to the group's first line. -/
def merge_select_keep (pref : KeepPref) (lines : List WLine) : Option WLine :=
  match pref with
  | KeepPref.manual =>
    match lines.filter (fun l => l.is_recommended_keep) with
    | [] => none
    | k :: _ => some k
  | _ =>
    match lines.filter (fun l => l.is_recommended_keep) with
    | [] => lines.head?
    | k :: _ => some k

/-- Embeds the per-group body of `TMDBDataCleanupWizard._delete_duplicates`
(lines 509-521): groups of fewer than two lines are skipped; otherwise every
movie of a line not flagged "recommended keep" is unlinked. -/
def delete_group (store : List Movie) (lines : List WLine) : List Movie :=
  if lines.length < 2 then store
  else
    let removeIds :=
      (lines.filter (fun l => !l.is_recommended_keep)).map WLine.movie_id
    store.filter (fun m => !removeIds.contains m.id)

/-- A kept record with vote_count 10 for the C8 scenario. -/
def c8exTarget : Movie :=
  { id := 1, tmdb_id := 100, title := "A", original_title := none,
    overview := none, release_date := none, popularity := 0,
    vote_average := 2, vote_count := 10, poster_path := none,
    backdrop_path := none, director := none, director_id := none,
    genre_ids := [], actor_ids := [], active := true, last_sync := 0,
    create_date := 0 }

/-- A first discarded member with the group's highest vote_count 100. -/
def c8exSrcA : Movie :=
  { id := 2, tmdb_id := 101, title := "A", original_title := none,
    overview := none, release_date := none, popularity := 0,
    vote_average := 5, vote_count := 100, poster_path := none,
    backdrop_path := none, director := none, director_id := none,
    genre_ids := [], actor_ids := [], active := true, last_sync := 0,
    create_date := 0 }

/-- A second discarded member with vote_count 50, still above the target's
10 but below the group maximum. -/
def c8exSrcB : Movie :=
  { id := 3, tmdb_id := 102, title := "A", original_title := none,
    overview := none, release_date := none, popularity := 0,
    vote_average := 9, vote_count := 50, poster_path := none,
    backdrop_path := none, director := none, director_id := none,
    genre_ids := [], actor_ids := [], active := true, last_sync := 0,
    create_date := 0 }

/-- C8 counterexample: merging sources with vote counts 100 then 50 into a
target with vote count 10 leaves the kept record at vote_count 50 (the last
source exceeding the target's original count), not the group's highest 100 —
because each source is compared against the target's pre-merge value, and a
later qualifying source overwrites the pending dict entry. -/
theorem c8_counterexample_vote_merge :
    (merge_movie_data c8exTarget [c8exSrcA, c8exSrcB]).vote_count = 50 ∧
    (merge_movie_data c8exTarget [c8exSrcA, c8exSrcB]).vote_average = 9 ∧
    c8exSrcA.vote_count = 100 ∧ (50 : Int) < 100 := by
  decide

/-- Generic component evaluation of the `_merge_movie_data` source fold: a
projection that steps independently through `mstep` evaluates to its own
fold. -/
theorem foldl_mstep_component {β : Type} (target : Movie)
    (g : UpdateVals × Finset Nat → β) (step : Movie → β → β)
    (hstep : ∀ acc src, g (mstep target acc src) = step src (g acc)) :
    ∀ (sources : List Movie) (acc : UpdateVals × Finset Nat),
      g (sources.foldl (mstep target) acc) =
        sources.foldl (fun b s => step s b) (g acc) := by
  intro sources
  induction sources with
  | nil => intro acc; rfl
  | cons src rest ih =>
    intro acc
    simp only [List.foldl_cons]
    rw [ih (mstep target acc src), hstep]

/-- A fold whose step ignores the element is constant. -/
theorem foldl_const {α β : Type} (l : List α) (b : β) :
    l.foldl (fun x _ => x) b = b := by
  induction l with
  | nil => rfl
  | cons a l ih => exact ih

/-- The last present value in a list of optional fields, scanned left to
right (the value a later qualifying source leaves in the dict). -/
def lastPresentFrom (init : Option String) (l : List (Option String)) :
    Option String :=
  l.foldl (fun acc o => if o ≠ none then o else acc) init

/-- The `director_id` dict value left by the last source with a director. -/
def lastDirectorIdFrom (init : Option (Option Nat))
    (l : List (Option String × Option Nat)) : Option (Option Nat) :=
  l.foldl (fun acc p => if p.1 ≠ none then some p.2 else acc) init

/-- The (vote_count, vote_average) pair left by the last source whose
nonzero vote count exceeds the target's pre-merge count. -/
def lastVoteFrom (tvc : Int) (init : Option (Int × Rat))
    (l : List (Int × Rat)) : Option (Int × Rat) :=
  l.foldl (fun acc p => if p.1 ≠ 0 ∧ tvc < p.1 then some p else acc) init

/-- The union of genre id sets accumulated by the merge loop. -/
def genreUnionFrom (init : Finset Nat) (l : List (List Nat)) : Finset Nat :=
  l.foldl (fun c g => if g.isEmpty then c else c ∪ g.toFinset) init

/-- The merge fold's overview entry when the target lacks an overview. -/
theorem fold_overview_absent (target : Movie) (sources : List Movie)
    (acc : UpdateVals × Finset Nat) (ht : target.overview = none) :
    (sources.foldl (mstep target) acc).1.overview =
      lastPresentFrom acc.1.overview (sources.map Movie.overview) := by
  rw [foldl_mstep_component target (fun a => a.1.overview)
    (fun s b => if target.overview = none ∧ s.overview ≠ none then s.overview
      else b) (fun _ _ => rfl) sources acc]
  unfold lastPresentFrom
  rw [List.foldl_map]
  simp [ht]

/-- The merge fold never touches the overview entry when the target has an
overview. -/
theorem fold_overview_present (target : Movie) (sources : List Movie)
    (acc : UpdateVals × Finset Nat) (ht : target.overview ≠ none) :
    (sources.foldl (mstep target) acc).1.overview = acc.1.overview := by
  rw [foldl_mstep_component target (fun a => a.1.overview)
    (fun s b => if target.overview = none ∧ s.overview ≠ none then s.overview
      else b) (fun _ _ => rfl) sources acc]
  simp only [ht, false_and, if_false]
  exact foldl_const _ _

/-- The merge fold's poster entry when the target lacks a poster. -/
theorem fold_poster_absent (target : Movie) (sources : List Movie)
    (acc : UpdateVals × Finset Nat) (ht : target.poster_path = none) :
    (sources.foldl (mstep target) acc).1.poster_path =
      lastPresentFrom acc.1.poster_path (sources.map Movie.poster_path) := by
  rw [foldl_mstep_component target (fun a => a.1.poster_path)
    (fun s b => if target.poster_path = none ∧ s.poster_path ≠ none then
      s.poster_path else b) (fun _ _ => rfl) sources acc]
  unfold lastPresentFrom
  rw [List.foldl_map]
  simp [ht]

/-- The merge fold never touches the poster entry when the target has one. -/
theorem fold_poster_present (target : Movie) (sources : List Movie)
    (acc : UpdateVals × Finset Nat) (ht : target.poster_path ≠ none) :
    (sources.foldl (mstep target) acc).1.poster_path = acc.1.poster_path := by
  rw [foldl_mstep_component target (fun a => a.1.poster_path)
    (fun s b => if target.poster_path = none ∧ s.poster_path ≠ none then
      s.poster_path else b) (fun _ _ => rfl) sources acc]
  simp only [ht, false_and, if_false]
  exact foldl_const _ _

/-- The merge fold's backdrop entry when the target lacks a backdrop. -/
theorem fold_backdrop_absent (target : Movie) (sources : List Movie)
    (acc : UpdateVals × Finset Nat) (ht : target.backdrop_path = none) :
    (sources.foldl (mstep target) acc).1.backdrop_path =
      lastPresentFrom acc.1.backdrop_path
        (sources.map Movie.backdrop_path) := by
  rw [foldl_mstep_component target (fun a => a.1.backdrop_path)
    (fun s b => if target.backdrop_path = none ∧ s.backdrop_path ≠ none then
      s.backdrop_path else b) (fun _ _ => rfl) sources acc]
  unfold lastPresentFrom
  rw [List.foldl_map]
  simp [ht]

/-- The merge fold never touches the backdrop entry when the target has
one. -/
theorem fold_backdrop_present (target : Movie) (sources : List Movie)
    (acc : UpdateVals × Finset Nat) (ht : target.backdrop_path ≠ none) :
    (sources.foldl (mstep target) acc).1.backdrop_path =
      acc.1.backdrop_path := by
  rw [foldl_mstep_component target (fun a => a.1.backdrop_path)
    (fun s b => if target.backdrop_path = none ∧ s.backdrop_path ≠ none then
      s.backdrop_path else b) (fun _ _ => rfl) sources acc]
  simp only [ht, false_and, if_false]
  exact foldl_const _ _

/-- The merge fold's director entry when the target lacks a director. -/
theorem fold_director_absent (target : Movie) (sources : List Movie)
    (acc : UpdateVals × Finset Nat) (ht : target.director = none) :
    (sources.foldl (mstep target) acc).1.director =
      lastPresentFrom acc.1.director (sources.map Movie.director) := by
  rw [foldl_mstep_component target (fun a => a.1.director)
    (fun s b => if target.director = none ∧ s.director ≠ none then s.director
      else b) (fun _ _ => rfl) sources acc]
  unfold lastPresentFrom
  rw [List.foldl_map]
  simp [ht]

/-- The merge fold never touches the director entry when the target has
one. -/
theorem fold_director_present (target : Movie) (sources : List Movie)
    (acc : UpdateVals × Finset Nat) (ht : target.director ≠ none) :
    (sources.foldl (mstep target) acc).1.director = acc.1.director := by
  rw [foldl_mstep_component target (fun a => a.1.director)
    (fun s b => if target.director = none ∧ s.director ≠ none then s.director
      else b) (fun _ _ => rfl) sources acc]
  simp only [ht, false_and, if_false]
  exact foldl_const _ _

/-- The merge fold's director-reference entry when the target lacks a
director. -/
theorem fold_director_id_absent (target : Movie) (sources : List Movie)
    (acc : UpdateVals × Finset Nat) (ht : target.director = none) :
    (sources.foldl (mstep target) acc).1.director_id =
      lastDirectorIdFrom acc.1.director_id
        (sources.map (fun s => (s.director, s.director_id))) := by
  rw [foldl_mstep_component target (fun a => a.1.director_id)
    (fun s b => if target.director = none ∧ s.director ≠ none then
      some s.director_id else b) (fun _ _ => rfl) sources acc]
  unfold lastDirectorIdFrom
  rw [List.foldl_map]
  simp [ht]

/-- The merge fold never touches the director-reference entry when the
target has a director. -/
theorem fold_director_id_present (target : Movie) (sources : List Movie)
    (acc : UpdateVals × Finset Nat) (ht : target.director ≠ none) :
    (sources.foldl (mstep target) acc).1.director_id = acc.1.director_id := by
  rw [foldl_mstep_component target (fun a => a.1.director_id)
    (fun s b => if target.director = none ∧ s.director ≠ none then
      some s.director_id else b) (fun _ _ => rfl) sources acc]
  simp only [ht, false_and, if_false]
  exact foldl_const _ _

/-- The merge fold's vote entry is the pair of the last source whose nonzero
vote count exceeds the target's pre-merge count. -/
theorem fold_votes_eq (target : Movie) (sources : List Movie)
    (acc : UpdateVals × Finset Nat) :
    (sources.foldl (mstep target) acc).1.votes =
      lastVoteFrom target.vote_count acc.1.votes
        (sources.map (fun s => (s.vote_count, s.vote_average))) := by
  rw [foldl_mstep_component target (fun a => a.1.votes)
    (fun s b => if s.vote_count ≠ 0 ∧ target.vote_count < s.vote_count then
      some (s.vote_count, s.vote_average) else b) (fun _ _ => rfl) sources acc]
  unfold lastVoteFrom
  rw [List.foldl_map]

/-- The merge fold's genre accumulator is the running union. -/
theorem fold_genres_eq (target : Movie) (sources : List Movie)
    (acc : UpdateVals × Finset Nat) :
    (sources.foldl (mstep target) acc).2 =
      genreUnionFrom acc.2 (sources.map Movie.genre_ids) := by
  rw [foldl_mstep_component target (fun a => a.2)
    (fun s c => if s.genre_ids.isEmpty then c else c ∪ s.genre_ids.toFinset)
    (fun _ _ => rfl) sources acc]
  unfold genreUnionFrom
  rw [List.foldl_map]

/-- Membership in the running genre union. -/
theorem mem_genreUnionFrom (g : Nat) :
    ∀ (l : List (List Nat)) (init : Finset Nat),
      g ∈ genreUnionFrom init l ↔ g ∈ init ∨ ∃ gl ∈ l, g ∈ gl := by
  intro l
  induction l with
  | nil =>
    intro init
    simp [genreUnionFrom]
  | cons gl rest ih =>
    intro init
    unfold genreUnionFrom at ih ⊢
    rw [List.foldl_cons]
    by_cases hgl : gl.isEmpty
    · rw [if_pos hgl]
      rw [ih init]
      have : gl = [] := List.isEmpty_iff.mp hgl
      subst this
      constructor
      · rintro (h | h)
        · exact Or.inl h
        · rcases h with ⟨w, hw, hgw⟩
          exact Or.inr ⟨w, List.mem_cons_of_mem _ hw, hgw⟩
      · rintro (h | ⟨w, hw, hgw⟩)
        · exact Or.inl h
        · rcases List.mem_cons.mp hw with h1 | h2
          · subst h1
            simp at hgw
          · exact Or.inr ⟨w, h2, hgw⟩
    · rw [if_neg hgl]
      rw [ih (init ∪ gl.toFinset)]
      constructor
      · rintro (h | h)
        · rcases Finset.mem_union.mp h with h1 | h1
          · exact Or.inl h1
          · exact Or.inr ⟨gl, List.mem_cons_self _ _, List.mem_toFinset.mp h1⟩
        · rcases h with ⟨w, hw, hgw⟩
          exact Or.inr ⟨w, List.mem_cons_of_mem _ hw, hgw⟩
      · rintro (h | ⟨w, hw, hgw⟩)
        · exact Or.inl (Finset.mem_union_left _ h)
        · rcases List.mem_cons.mp hw with h1 | h2
          · subst h1
            exact Or.inl (Finset.mem_union_right _ (List.mem_toFinset.mpr hgw))
          · exact Or.inr ⟨w, h2, hgw⟩

/-- Merging never changes the kept record's id. -/
theorem merge_movie_data_id (target : Movie) (sources : List Movie) :
    (merge_movie_data target sources).id = target.id := by
  unfold merge_movie_data
  split <;> rfl

/-- C8 amended: `_merge_movie_data` fills overview, director (with its
contact reference), poster path and backdrop path into the kept record only
when the kept record currently lacks that field, taking the value of the
*last* discarded member that has it; all genre associations of the group are
unioned into the kept record; and the kept record adopts the
vote_count/vote_average pair of the *last* discarded member (in iteration
order) whose nonzero vote_count exceeds the kept record's pre-merge
vote_count — not necessarily the group's highest; `_merge_duplicates` then
deletes every non-kept member from the store while the kept (merged) record
remains. -/
theorem c8_amended_merge_movie_data (target : Movie)
    (sources store : List Movie) :
    ((target.overview ≠ none →
        (merge_movie_data target sources).overview = target.overview) ∧
      (target.overview = none →
        (merge_movie_data target sources).overview =
          lastPresentFrom none (sources.map Movie.overview))) ∧
    ((target.poster_path ≠ none →
        (merge_movie_data target sources).poster_path = target.poster_path) ∧
      (target.poster_path = none →
        (merge_movie_data target sources).poster_path =
          lastPresentFrom none (sources.map Movie.poster_path))) ∧
    ((target.backdrop_path ≠ none →
        (merge_movie_data target sources).backdrop_path =
          target.backdrop_path) ∧
      (target.backdrop_path = none →
        (merge_movie_data target sources).backdrop_path =
          lastPresentFrom none (sources.map Movie.backdrop_path))) ∧
    ((target.director ≠ none →
        (merge_movie_data target sources).director = target.director ∧
        (merge_movie_data target sources).director_id = target.director_id) ∧
      (target.director = none →
        (merge_movie_data target sources).director =
          lastPresentFrom none (sources.map Movie.director) ∧
        (merge_movie_data target sources).director_id =
          (match lastDirectorIdFrom none
              (sources.map (fun s => (s.director, s.director_id))) with
            | some v => v
            | none => target.director_id))) ∧
    (∀ g, g ∈ (merge_movie_data target sources).genre_ids ↔
      g ∈ target.genre_ids ∨ ∃ src ∈ sources, g ∈ src.genre_ids) ∧
    (((merge_movie_data target sources).vote_count,
        (merge_movie_data target sources).vote_average) =
      (match lastVoteFrom target.vote_count none
          (sources.map (fun s => (s.vote_count, s.vote_average))) with
        | some p => p
        | none => (target.vote_count, target.vote_average))) ∧
    (∀ m ∈ merge_group store target sources, m.id ∉ sources.map Movie.id) ∧
    (target ∈ store → target.id ∉ sources.map Movie.id →
      merge_movie_data target sources ∈ merge_group store target sources) := by
  by_cases hemp : sources.isEmpty
  · have hsrc : sources = [] := List.isEmpty_iff.mp hemp
    subst hsrc
    refine ⟨⟨fun _ => rfl, fun ht => ?_⟩, ⟨fun _ => rfl, fun ht => ?_⟩,
      ⟨fun _ => rfl, fun ht => ?_⟩,
      ⟨fun _ => ⟨rfl, rfl⟩, fun ht => ⟨?_, rfl⟩⟩, ?_, rfl, ?_, ?_⟩
    · exact ht
    · exact ht
    · exact ht
    · exact ht
    · intro g
      simp [merge_movie_data]
    · intro m hm
      simp
    · intro htgt _
      unfold merge_group
      dsimp only
      refine List.mem_filter.mpr ⟨?_, by simp⟩
      refine List.mem_map.mpr ⟨target, htgt, ?_⟩
      simp
  · have hunfold : merge_movie_data target sources =
        apply_update_vals target
          (sources.foldl (mstep target)
            (emptyUpdateVals, target.genre_ids.toFinset)).1
          (if (sources.foldl (mstep target)
              (emptyUpdateVals, target.genre_ids.toFinset)).2 ≠
              target.genre_ids.toFinset then
            some ((sources.foldl (mstep target)
              (emptyUpdateVals, target.genre_ids.toFinset)).2.sort (· ≤ ·))
          else none) := by
      unfold merge_movie_data
      rw [if_neg (by simpa using hemp)]
    refine ⟨⟨?_, ?_⟩, ⟨?_, ?_⟩, ⟨?_, ?_⟩, ⟨?_, ?_⟩, ?_, ?_, ?_, ?_⟩
    · intro ht
      rw [hunfold]
      unfold apply_update_vals
      dsimp only
      rw [fold_overview_present target sources _ ht]
      rfl
    · intro ht
      rw [hunfold]
      unfold apply_update_vals
      dsimp only
      rw [fold_overview_absent target sources _ ht]
      dsimp only [emptyUpdateVals]
      cases hL : lastPresentFrom none (sources.map Movie.overview) with
      | none => exact ht
      | some v => rfl
    · intro ht
      rw [hunfold]
      unfold apply_update_vals
      dsimp only
      rw [fold_poster_present target sources _ ht]
      rfl
    · intro ht
      rw [hunfold]
      unfold apply_update_vals
      dsimp only
      rw [fold_poster_absent target sources _ ht]
      dsimp only [emptyUpdateVals]
      cases hL : lastPresentFrom none (sources.map Movie.poster_path) with
      | none => exact ht
      | some v => rfl
    · intro ht
      rw [hunfold]
      unfold apply_update_vals
      dsimp only
      rw [fold_backdrop_present target sources _ ht]
      rfl
    · intro ht
      rw [hunfold]
      unfold apply_update_vals
      dsimp only
      rw [fold_backdrop_absent target sources _ ht]
      dsimp only [emptyUpdateVals]
      cases hL : lastPresentFrom none (sources.map Movie.backdrop_path) with
      | none => exact ht
      | some v => rfl
    · intro ht
      rw [hunfold]
      unfold apply_update_vals
      dsimp only
      rw [fold_director_present target sources _ ht,
        fold_director_id_present target sources _ ht]
      exact ⟨rfl, rfl⟩
    · intro ht
      rw [hunfold]
      unfold apply_update_vals
      dsimp only
      rw [fold_director_absent target sources _ ht,
        fold_director_id_absent target sources _ ht]
      dsimp only [emptyUpdateVals]
      constructor
      · cases hL : lastPresentFrom none (sources.map Movie.director) with
        | none => exact ht
        | some v => rfl
      · rfl
    · intro g
      rw [hunfold]
      unfold apply_update_vals
      dsimp only
      rw [fold_genres_eq target sources _]
      by_cases hne : genreUnionFrom target.genre_ids.toFinset
          (sources.map Movie.genre_ids) ≠ target.genre_ids.toFinset
      · rw [if_pos hne]
        dsimp only
        rw [Finset.mem_sort]
        rw [mem_genreUnionFrom g (sources.map Movie.genre_ids)
          target.genre_ids.toFinset]
        simp [List.mem_toFinset, List.mem_map]
      · rw [if_neg hne]
        rw [not_ne_iff] at hne
        dsimp only
        constructor
        · intro h
          exact Or.inl h
        · rintro (h | ⟨src, hsrc, hg⟩)
          · exact h
          · have : g ∈ genreUnionFrom target.genre_ids.toFinset
                (sources.map Movie.genre_ids) :=
              (mem_genreUnionFrom g _ _).mpr
                (Or.inr ⟨src.genre_ids, List.mem_map_of_mem _ hsrc, hg⟩)
            rw [hne] at this
            exact List.mem_toFinset.mp this
    · rw [hunfold]
      unfold apply_update_vals
      dsimp only
      rw [fold_votes_eq target sources _]
      dsimp only [emptyUpdateVals]
      cases hL : lastVoteFrom target.vote_count none
          (sources.map (fun s => (s.vote_count, s.vote_average))) with
      | none => rfl
      | some p => rfl
    · intro m hm
      unfold merge_group at hm
      dsimp only at hm
      have hpred := (List.mem_filter.mp hm).2
      simp at hpred
      intro hmem
      obtain ⟨a, ha, haid⟩ := List.mem_map.mp hmem
      exact hpred a ha haid
    · intro htgt hnid
      unfold merge_group
      dsimp only
      refine List.mem_filter.mpr ⟨?_, ?_⟩
      · refine List.mem_map.mpr ⟨target, htgt, ?_⟩
        simp
      · rw [merge_movie_data_id]
        simp only [Bool.not_eq_true']
        refine Bool.eq_false_iff.mpr ?_
        intro hc
        simp at hc
        obtain ⟨a, ha, haid⟩ := hc
        exact hnid (List.mem_map.mpr ⟨a, ha, haid⟩)

/-- Witness for C8 amended: in the concrete group the kept record ends with
the last qualifying source's pair (50, 9), and the merged record survives in
the store processed by the group merge. -/
theorem c8_amended_merge_movie_data_witness :
    ((merge_movie_data c8exTarget [c8exSrcA, c8exSrcB]).vote_count,
      (merge_movie_data c8exTarget [c8exSrcA, c8exSrcB]).vote_average) =
      ((50 : Int), (9 : Rat)) ∧
    merge_movie_data c8exTarget [c8exSrcA, c8exSrcB] ∈
      merge_group [c8exTarget, c8exSrcA, c8exSrcB] c8exTarget
        [c8exSrcA, c8exSrcB] := by
  have h := c8_amended_merge_movie_data c8exTarget [c8exSrcA, c8exSrcB]
    [c8exTarget, c8exSrcA, c8exSrcB]
  refine ⟨?_, h.2.2.2.2.2.2.2 (by decide) (by decide)⟩
  rw [h.2.2.2.2.2.1]
  decide

/-- C10: under the "manual" keep preference detection never flags a record
("recommended keep" is always false), so for a detected group of at least
two lines none of which is flagged, the delete action removes every member
of the group from the store — no record of the group survives — while the
merge action skips such a group (no keep line is selected). -/
theorem c10_manual_delete_removes_group (store : List Movie)
    (lines : List WLine) (m : Movie) (group : List Movie) :
    is_recommended_keep KeepPref.manual m group = false ∧
    (2 ≤ lines.length →
      (∀ l ∈ lines, l.is_recommended_keep = false) →
      merge_select_keep KeepPref.manual lines = none ∧
      ∀ x ∈ store, x.id ∈ lines.map WLine.movie_id →
        x ∉ delete_group store lines) := by
  constructor
  · rfl
  · intro hlen hflags
    constructor
    · unfold merge_select_keep
      have hfe : lines.filter (fun l => l.is_recommended_keep) = [] :=
        List.filter_eq_nil_iff.mpr (fun l hl => by simp [hflags l hl])
      rw [hfe]
    · intro x hx hxid
      unfold delete_group
      rw [if_neg (by omega)]
      intro hmem
      have hpred := (List.mem_filter.mp hmem).2
      have hfilter : lines.filter (fun l => !l.is_recommended_keep) = lines :=
        List.filter_eq_self.mpr (fun l hl => by simp [hflags l hl])
      rw [hfilter] at hpred
      simp at hpred
      obtain ⟨l, hl, hlid⟩ := List.mem_map.mp hxid
      exact hpred l hl hlid

/-- A store of two movies forming one unflagged manual group. -/
def c10exStore : List Movie :=
  [c8exTarget, c8exSrcA]

/-- The wizard lines of that group, none flagged to keep. -/
def c10exLines : List WLine :=
  [{ movie_id := 1, group_number := 1, is_recommended_keep := false },
   { movie_id := 2, group_number := 1, is_recommended_keep := false }]

/-- Witness for C10: with the two-line unflagged manual group, merge skips
the group and delete removes both members. -/
theorem c10_manual_delete_removes_group_witness :
    merge_select_keep KeepPref.manual c10exLines = none ∧
    c8exTarget ∉ delete_group c10exStore c10exLines ∧
    c8exSrcA ∉ delete_group c10exStore c10exLines := by
  have h := (c10_manual_delete_removes_group c10exStore c10exLines
    c8exTarget []).2 (by decide) (by decide)
  exact ⟨h.1, h.2 c8exTarget (by decide) (by decide),
    h.2 c8exSrcA (by decide) (by decide)⟩
